import Mathlib

/-!
# rocDecode: decoder front-end and elementary-stream parser

Two translation units are embedded here.

* `src/rocdecode/roc_decoder.cpp`: the `RocDecoder` methods.  The HIP runtime, the
  VA-API decoder and the logging helpers of `commons.h` are external to that file;
  they are taken as parameters (`Externals`) and every call made through them is
  recorded in an explicit environment.
* `utils/videoFileParser/video_es_parser.h`: the declaration of `RocVideoESParser`.
  Only the constants, the fields and the method signatures are in that header; the
  method bodies are modelled from the design document and are marked as such.
-/

namespace RocDecode

/-! ## Part 1: `roc_decoder.cpp` -/

/-- Status codes of the decoder API.  The enumeration is declared in `rocdecode.h`;
the three enumerators that `roc_decoder.cpp` names are constructors here and
`other` stands for every further enumerator. -/
inductive rocDecStatus where
  | ROCDEC_SUCCESS
  | ROCDEC_DEVICE_INVALID
  | ROCDEC_NOT_IMPLEMENTED
  | other (code : Int)
deriving DecidableEq, Repr

/-- Result codes of the HIP runtime: `hipSuccess` or any other code. -/
inductive hipError_t where
  | hipSuccess
  | hipError (code : Nat)
deriving DecidableEq, Repr

/-- The part of `hipDeviceProp_t` that the decoder reads. -/
structure hipDeviceProp_t where
  gcnArchName : String
deriving DecidableEq, Repr

/-- External calls made by the decoder, in the order they are issued. -/
inductive Call where
  | hipGetDeviceCount
  | hipSetDevice (device_id : Int)
  | hipGetDeviceProperties (device_id : Int)
  | hipStreamCreate
  | vaInitializeDecoder (gcnArchName : String)
  | vaSubmitDecode
  | vaGetDecodeStatus (nPicIdx : Int)
deriving DecidableEq, Repr

/-- Everything outside the decoder object: the state of the HIP runtime and
driver (`world`), the external calls issued so far and the messages passed to
the `ERR` logging helper. -/
structure Env (W : Type) where
  world : W
  calls : List Call
  errs : List String

/-- The collaborators of `roc_decoder.cpp` that are defined elsewhere.  An
out-parameter is rendered as an argument holding the old content and a result
holding the new one.  `W` is the state of the HIP runtime, `V` the state of the
VA-API decoder object, `P` the picture parameters and `D` the decode status
record. -/
structure Externals (W V P D : Type) where
  hipGetDeviceCount : W → Int → hipError_t × Int × W
  hipSetDevice : W → Int → hipError_t × W
  hipGetDeviceProperties : W → hipDeviceProp_t → Int → hipError_t × hipDeviceProp_t × W
  hipStreamCreate : W → Option Nat → hipError_t × Option Nat × W
  vaInitializeDecoder : V → String → rocDecStatus × V
  vaSubmitDecode : V → P → rocDecStatus × V
  vaGetDecodeStatus : V → Int → D → rocDecStatus × D × V
  TOSTR_hip : hipError_t → String
  TOSTR_int : Int → String
  TOSTR_status : rocDecStatus → String

/-- The fields of a `RocDecoder` object. -/
structure RocDecoder (V : Type) where
  va_video_decoder_ : V
  device_id_ : Int
  num_devices_ : Int
  hip_dev_prop_ : hipDeviceProp_t
  hip_stream_ : Option Nat

/-- The logging helper `ERR(msg)`: the message is appended to the log. -/
def ERR {W : Type} (e : Env W) (msg : String) : Env W :=
  { e with errs := e.errs ++ [msg] }

/-- Record an external call. -/
def Env.call {W : Type} (e : Env W) (c : Call) (w : W) : Env W :=
  { e with world := w, calls := e.calls ++ [c] }

/-- `RocDecoder::InitHIP(int device_id)`.  Each `if` block of the source assigns
`decStatus` and logs through `ERR`; the two effects are written as two bindings
under the same condition. -/
def InitHIP {W V P D : Type} (X : Externals W V P D) (dec : RocDecoder V) (device_id : Int)
    (e : Env W) : rocDecStatus × RocDecoder V × Env W :=
  -- hipStatus = hipGetDeviceCount(&num_devices_);
  let r1 := X.hipGetDeviceCount e.world dec.num_devices_
  let dec := { dec with num_devices_ := r1.2.1 }
  let e := e.call Call.hipGetDeviceCount r1.2.2
  let decStatus := rocDecStatus.ROCDEC_SUCCESS
  -- if (hipStatus != hipSuccess)
  let decStatus :=
    if r1.1 ≠ hipError_t.hipSuccess then rocDecStatus.ROCDEC_DEVICE_INVALID else decStatus
  let e :=
    if r1.1 ≠ hipError_t.hipSuccess then
      ERR e ("ERROR: hipGetDeviceCount failed!" ++ X.TOSTR_hip r1.1)
    else e
  -- if (num_devices_ < 1)
  let decStatus :=
    if dec.num_devices_ < (1 : Int) then rocDecStatus.ROCDEC_DEVICE_INVALID else decStatus
  let e := if dec.num_devices_ < (1 : Int) then ERR e "ERROR: didn't find any GPU!" else e
  -- if (device_id >= num_devices_)
  let decStatus :=
    if device_id ≥ dec.num_devices_ then rocDecStatus.ROCDEC_DEVICE_INVALID else decStatus
  let e :=
    if device_id ≥ dec.num_devices_ then
      ERR e "ERROR: the requested device_id is not found! "
    else e
  -- hipStatus = hipSetDevice(device_id);
  let r2 := X.hipSetDevice e.world device_id
  let e := e.call (Call.hipSetDevice device_id) r2.2
  let decStatus :=
    if r2.1 ≠ hipError_t.hipSuccess then rocDecStatus.ROCDEC_DEVICE_INVALID else decStatus
  let e :=
    if r2.1 ≠ hipError_t.hipSuccess then
      ERR e ("ERROR: hipSetDevice( " ++ X.TOSTR_int device_id ++ ") failed! ("
        ++ X.TOSTR_hip r2.1 ++ ")")
    else e
  -- hipStatus = hipGetDeviceProperties(&hip_dev_prop_, device_id);
  let r3 := X.hipGetDeviceProperties e.world dec.hip_dev_prop_ device_id
  let dec := { dec with hip_dev_prop_ := r3.2.1 }
  let e := e.call (Call.hipGetDeviceProperties device_id) r3.2.2
  let decStatus :=
    if r3.1 ≠ hipError_t.hipSuccess then rocDecStatus.ROCDEC_DEVICE_INVALID else decStatus
  let e :=
    if r3.1 ≠ hipError_t.hipSuccess then
      ERR e ("ERROR: hipGetDeviceProperties for device (" ++ X.TOSTR_int device_id
        ++ " ) failed! (" ++ X.TOSTR_hip r3.1 ++ ")")
    else e
  -- hipStatus = hipStreamCreate(&hip_stream_);
  let r4 := X.hipStreamCreate e.world dec.hip_stream_
  let dec := { dec with hip_stream_ := r4.2.1 }
  let e := e.call Call.hipStreamCreate r4.2.2
  let decStatus :=
    if r4.1 ≠ hipError_t.hipSuccess then rocDecStatus.ROCDEC_DEVICE_INVALID else decStatus
  let e :=
    if r4.1 ≠ hipError_t.hipSuccess then
      ERR e ("ERROR: hipStream_Create failed! (" ++ X.TOSTR_hip r4.1 ++ ")")
    else e
  (decStatus, dec, e)

/-- `RocDecoder::InitializeDecoder()`. -/
def InitializeDecoder {W V P D : Type} (X : Externals W V P D) (dec : RocDecoder V)
    (e : Env W) : rocDecStatus × RocDecoder V × Env W :=
  let r := InitHIP X dec dec.device_id_ e
  let rocdec_status := r.1
  let dec := r.2.1
  let e := r.2.2
  if rocdec_status ≠ rocDecStatus.ROCDEC_SUCCESS then
    (rocdec_status, dec,
      ERR e ("ERROR: Failed to initilize the HIP!" ++ X.TOSTR_status rocdec_status))
  else
    let v := X.vaInitializeDecoder dec.va_video_decoder_ dec.hip_dev_prop_.gcnArchName
    let rocdec_status := v.1
    let dec := { dec with va_video_decoder_ := v.2 }
    let e := e.call (Call.vaInitializeDecoder dec.hip_dev_prop_.gcnArchName) e.world
    if rocdec_status ≠ rocDecStatus.ROCDEC_SUCCESS then
      (rocdec_status, dec,
        ERR e ("ERROR: Failed to initilize the VAAPI Video decoder!"
          ++ X.TOSTR_status rocdec_status))
    else
      (rocdec_status, dec, e)

/-- `RocDecoder::decodeFrame(RocdecPicParams *pPicParams)`. -/
def decodeFrame {W V P D : Type} (X : Externals W V P D) (dec : RocDecoder V)
    (pPicParams : P) (e : Env W) : rocDecStatus × RocDecoder V × Env W :=
  let v := X.vaSubmitDecode dec.va_video_decoder_ pPicParams
  let rocdec_status := v.1
  let dec := { dec with va_video_decoder_ := v.2 }
  let e := e.call Call.vaSubmitDecode e.world
  let e :=
    if rocdec_status ≠ rocDecStatus.ROCDEC_SUCCESS then
      ERR e ("ERROR: Decode submission is not successful!" ++ X.TOSTR_status rocdec_status)
    else e
  (rocdec_status, dec, e)

/-- `RocDecoder::getDecodeStatus(int nPicIdx, RocdecDecodeStatus* pDecodeStatus)`;
the record behind `pDecodeStatus` is returned next to the status. -/
def getDecodeStatus {W V P D : Type} (X : Externals W V P D) (dec : RocDecoder V)
    (nPicIdx : Int) (pDecodeStatus : D) (e : Env W) :
    rocDecStatus × D × RocDecoder V × Env W :=
  let v := X.vaGetDecodeStatus dec.va_video_decoder_ nPicIdx pDecodeStatus
  let rocdec_status := v.1
  let dec := { dec with va_video_decoder_ := v.2.2 }
  let e := e.call (Call.vaGetDecodeStatus nPicIdx) e.world
  let e :=
    if rocdec_status ≠ rocDecStatus.ROCDEC_SUCCESS then
      ERR e ("ERROR: Failed to query the decode status!" ++ X.TOSTR_status rocdec_status)
    else e
  (rocdec_status, v.2.1, dec, e)

/-- `RocDecoder::reconfigureDecoder(RocdecReconfigureDecoderInfo *pDecReconfigParams)`. -/
def reconfigureDecoder {W V R : Type} (dec : RocDecoder V) (_pDecReconfigParams : R)
    (e : Env W) : rocDecStatus × RocDecoder V × Env W :=
  (rocDecStatus.ROCDEC_NOT_IMPLEMENTED, dec, e)

/-- `RocDecoder::mapVideoFrame(nPicIdx, pDevMemPtr, pHorizontalPitch, pVidPostprocParams)`;
the two three-element out-arrays are returned as they were passed. -/
def mapVideoFrame {W V Q : Type} (dec : RocDecoder V) (_nPicIdx : Int)
    (pDevMemPtr : List Nat) (pHorizontalPitch : List Nat) (_pVidPostprocParams : Q)
    (e : Env W) : rocDecStatus × List Nat × List Nat × RocDecoder V × Env W :=
  (rocDecStatus.ROCDEC_NOT_IMPLEMENTED, pDevMemPtr, pHorizontalPitch, dec, e)

/-- `RocDecoder::unMapVideoFrame(void *pMappedDevPtr)`. -/
def unMapVideoFrame {W V : Type} (dec : RocDecoder V) (_pMappedDevPtr : Nat)
    (e : Env W) : rocDecStatus × RocDecoder V × Env W :=
  (rocDecStatus.ROCDEC_NOT_IMPLEMENTED, dec, e)

/-! ## Part 2: `video_es_parser.h` -/

/-- `#define BS_RING_SIZE (16 * 1024 * 1024)`. -/
def BS_RING_SIZE : Nat := 16 * 1024 * 1024

/-- `#define INIT_PIC_DATA_SIZE (2 * 1024 * 1024)`. -/
def INIT_PIC_DATA_SIZE : Nat := 2 * 1024 * 1024

/-- The file behind `FILE *p_stream_file_`: the bytes not read yet, and the number
of read requests issued so far (kept so that "the file is not read again" can be
stated). -/
structure StreamFile where
  data : List Nat
  num_reads : Nat

/-- `fread(buf, 1, n, p_stream_file_)`: hands out the next `n` bytes, fewer at the
end of the file. -/
def fread (f : StreamFile) (n : Nat) : List Nat × StreamFile :=
  (f.data.take n, { data := f.data.drop n, num_reads := f.num_reads + 1 })

/-- The fields of `class RocVideoESParser`, in declaration order.  Bytes and
offsets are natural numbers; `bs_ring_` is the backing store, addressed by
index.  `int obu_size_` receives a value computed from the stream and is kept
as a 32-bit signed integer (see `toInt32`). -/
structure RocVideoESParser where
  p_stream_file_ : StreamFile
  bs_ring_ : Nat → Nat
  read_ptr_ : Nat
  write_ptr_ : Nat
  end_of_file_ : Bool
  end_of_stream_ : Bool
  curr_byte_offset_ : Nat
  num_start_code_ : Nat
  curr_start_code_offset_ : Nat
  next_start_code_offset_ : Nat
  obu_byte_offset_ : Nat
  obu_size_ : Int
  num_td_obus_ : Nat
  pic_data_ : List Nat
  pic_data_size_ : Nat
  curr_pic_end_ : Nat
  next_pic_start_ : Nat
  num_pictures_ : Nat
  num_temp_units_ : Nat
  ivf_file_header_read_ : Bool

/-- Modelled from the spec: the constructor `RocVideoESParser(const char *)` (its
body is not in the header).  "`open(path)` opens the source and resets all parser
state."  `ring0` is whatever the freshly allocated backing store holds. -/
def OpenStream (ring0 : Nat → Nat) (file : List Nat) : RocVideoESParser where
  p_stream_file_ := { data := file, num_reads := 0 }
  bs_ring_ := ring0
  read_ptr_ := 0
  write_ptr_ := 0
  end_of_file_ := false
  end_of_stream_ := false
  curr_byte_offset_ := 0
  num_start_code_ := 0
  curr_start_code_offset_ := 0
  next_start_code_offset_ := 0
  obu_byte_offset_ := 0
  obu_size_ := 0
  num_td_obus_ := 0
  pic_data_ := []
  pic_data_size_ := 0
  curr_pic_end_ := 0
  next_pic_start_ := 0
  num_pictures_ := 0
  num_temp_units_ := 0
  ivf_file_header_read_ := false

/-! ### Ring buffer

The capacity is the macro `BS_RING_SIZE`; the header keeps three alternative
values of it in comments, so the methods below take the capacity `C` as an
argument and `BS_RING_SIZE` is one choice of it. -/

/-- Modelled from the spec: `GetDataSizeInRB` (body not in the header).  "Unread
byte count = `write_ptr − read_ptr` (mod C)". -/
def GetDataSizeInRB (C : Nat) (s : RocVideoESParser) : Nat :=
  (s.write_ptr_ + C - s.read_ptr_) % C

/-- Modelled from the spec: the store step of `FetchBitStream` (body not in the
header): `bytes` go into the backing store from position `pos` on, continuing at
index 0 after the physical end. -/
def ringStore (C : Nat) (ring : Nat → Nat) (pos : Nat) : List Nat → (Nat → Nat)
  | [] => ring
  | b :: bs => ringStore C (fun j => if j = pos % C then b else ring j) (pos + 1) bs

/-- Modelled from the spec: one of the "two memory copies" of `ReadBytes` (body not
in the header): `n` bytes from index `start` of the backing store. -/
def ringSlice (ring : Nat → Nat) (start n : Nat) : List Nat :=
  (List.range n).map (fun i => ring (start + i))

/-- Modelled from the spec: `FetchBitStream` (body not in the header).  "`fetch()`
reads up to (capacity − unread bytes) new bytes from the source and advances
`write_ptr`; returns bytes actually read (0 signals end-of-file)"; "end-of-file is
a terminal flag once the underlying source returns zero bytes".  Because the
unread count is taken modulo `C`, a ring holding `C` unread bytes would read as
empty; the request is therefore one byte short of the free space, which is within
the stated cap. -/
def FetchBitStream (C : Nat) (s : RocVideoESParser) : Nat × RocVideoESParser :=
  let free_space := C - 1 - GetDataSizeInRB C s
  if free_space = 0 then (0, s)
  else
    let r := fread s.p_stream_file_ free_space
    let read_size := r.1.length
    let s := { s with
      p_stream_file_ := r.2
      bs_ring_ := ringStore C s.bs_ring_ s.write_ptr_ r.1
      write_ptr_ := (s.write_ptr_ + read_size) % C }
    if read_size = 0 then (0, { s with end_of_file_ := true }) else (read_size, s)

/-- Modelled from the spec: `GetByte` (body not in the header).  "`peek_byte(offset)`
reads without consuming, relative to `read_ptr`, returning failure if the
requested range exceeds currently buffered unread bytes." -/
def GetByte (C : Nat) (s : RocVideoESParser) (offset : Nat) : Option Nat :=
  if offset < GetDataSizeInRB C s then some (s.bs_ring_ ((s.read_ptr_ + offset) % C))
  else none

/-- Modelled from the spec: `ReadBytes` (body not in the header).
"`peek_range(offset, size)` reads without consuming, relative to `read_ptr`,
returning failure if the requested range exceeds currently buffered unread bytes";
"any read/peek spanning the physical end of the backing store is split into two
memory copies internally." -/
def ReadBytes (C : Nat) (s : RocVideoESParser) (offset size : Nat) : Option (List Nat) :=
  if offset + size ≤ GetDataSizeInRB C s then
    let start := (s.read_ptr_ + offset) % C
    if start + size ≤ C then some (ringSlice s.bs_ring_ start size)
    else some (ringSlice s.bs_ring_ start (C - start)
      ++ ringSlice s.bs_ring_ 0 (size - (C - start)))
  else none

/-- Modelled from the spec: `SetReadPointer` (body not in the header).
"`advance_read(n)` moves `read_ptr` forward by n, reclaiming space for future
`fetch()` calls." -/
def SetReadPointer (C : Nat) (s : RocVideoESParser) (value : Nat) : RocVideoESParser :=
  { s with read_ptr_ := (s.read_ptr_ + value) % C }

/-- The unread bytes of the ring in stream order. -/
def buffered (C : Nat) (s : RocVideoESParser) : List Nat :=
  (List.range (GetDataSizeInRB C s)).map (fun i => s.bs_ring_ ((s.read_ptr_ + i) % C))

/-- Both ring offsets are positions of the backing store. -/
def RingWF (C : Nat) (s : RocVideoESParser) : Prop :=
  s.read_ptr_ < C ∧ s.write_ptr_ < C

/-- The four ring operations, as steps of a transition system. -/
inductive RingOp where
  | fetchBitStream
  | getByte (offset : Nat)
  | readBytes (offset size : Nat)
  | setReadPointer (value : Nat)

/-- The state after one ring operation (`GetByte` and `ReadBytes` only look). -/
def RingOp.apply (C : Nat) (s : RocVideoESParser) : RingOp → RocVideoESParser
  | RingOp.fetchBitStream => (FetchBitStream C s).2
  | RingOp.getByte _ => s
  | RingOp.readBytes _ _ => s
  | RingOp.setReadPointer value => SetReadPointer C s value

/-- The state after a sequence of ring operations. -/
def runRingOps (C : Nat) (s : RocVideoESParser) (ops : List RingOp) : RocVideoESParser :=
  ops.foldl (RingOp.apply C) s

/-- A small ring (capacity 8) after a fetch, a read-pointer advance and another
fetch: the unread bytes `1 2 3 4` sit at indices 6, 7, 0, 1. -/
def ringStraddling : RocVideoESParser :=
  runRingOps 8 (OpenStream (fun _ => 0) [9, 9, 9, 9, 9, 9, 1, 2, 3, 4])
    [RingOp.fetchBitStream, RingOp.setReadPointer 6, RingOp.fetchBitStream]

/-- The same unread bytes `1 2 3 4` at indices 0 to 3 of a ring of capacity 8. -/
def ringInside : RocVideoESParser :=
  runRingOps 8 (OpenStream (fun _ => 0) [1, 2, 3, 4]) [RingOp.fetchBitStream]

/-! ### Start-code scanner and AVC/HEVC pictures -/

/-- Outcome of a forward scan: the offset of the pattern, or the offset at which
the buffered bytes ran out. -/
inductive ScanResult where
  | Found (offset : Nat)
  | NeedMoreData (offset : Nat)
deriving DecidableEq, Repr

/-- Modelled from the spec: the scan inside `FindStartCode` (body not in the
header).  "Scans forward ... for the 3-byte pattern `00 00 01` ..., using only
`peek_byte`."  `peek` is `GetByte` on the current state; the scan starts at
offset `i` and inspects at most `fuel` positions. -/
def scanStartCode (peek : Nat → Option Nat) : Nat → Nat → ScanResult
  | 0, i => ScanResult.NeedMoreData i
  | fuel + 1, i =>
    match peek i, peek (i + 1), peek (i + 2) with
    | some b0, some b1, some b2 =>
      if b0 = 0 ∧ b1 = 0 ∧ b2 = 1 then ScanResult.Found i
      else scanStartCode peek fuel (i + 1)
    | _, _, _ => ScanResult.NeedMoreData i

/-- Modelled from the spec: part of `FindStartCode` (body not in the header).
"`00 00 01` (optionally preceded by a 4th zero byte)": the offset at which the
start code whose pattern sits at `i` begins, the zero byte being looked for no
further back than `lo`. -/
def startCodeBegin (peek : Nat → Option Nat) (lo i : Nat) : Nat :=
  if lo < i ∧ peek (i - 1) = some 0 then i - 1 else i

/-- Modelled from the spec: `FindStartCode` (body not in the header).  "Scans
forward from the last known start-code offset ...; returns the offset of the next
start code or signals 'not found yet, need more data' vs. 'end of stream, no more
start codes'"; a failed peek "forces a `fetch()` retry by the caller".  Header:
"true: a new start code is found or end of stream reached; false: no start code
found".  Offsets are relative to `read_ptr_`; the start code of the current unit
is searched from offset 0 and the next one from behind it.  Each retry follows a
fetch that delivered data, so `fuel` above the number of unread file bytes is
never used up. -/
def FindStartCode (C : Nat) : Nat → RocVideoESParser → Bool × RocVideoESParser
  | 0, s => (false, s)
  | fuel + 1, s =>
    match scanStartCode (GetByte C s) (GetDataSizeInRB C s) 0 with
    | ScanResult.NeedMoreData i =>
      let r := FetchBitStream C { s with curr_byte_offset_ := i }
      if r.1 ≠ 0 then FindStartCode C fuel r.2
      else if r.2.end_of_file_ then
        (true, { r.2 with num_start_code_ := 0, end_of_stream_ := true })
      else (false, r.2)
    | ScanResult.Found i =>
      let curr := startCodeBegin (GetByte C s) 0 i
      match scanStartCode (GetByte C s) (GetDataSizeInRB C s) (i + 3) with
      | ScanResult.Found j =>
        (true, { s with
          num_start_code_ := 2
          curr_start_code_offset_ := curr
          next_start_code_offset_ := startCodeBegin (GetByte C s) (i + 3) j
          curr_byte_offset_ := j })
      | ScanResult.NeedMoreData j =>
        let r := FetchBitStream C { s with curr_byte_offset_ := j }
        if r.1 ≠ 0 then FindStartCode C fuel r.2
        else if r.2.end_of_file_ then
          (true, { r.2 with
            num_start_code_ := 1
            curr_start_code_offset_ := curr
            next_start_code_offset_ := GetDataSizeInRB C r.2 })
        else (false, r.2)

/-- Modelled from the spec: part of `CopyNalUnitFromRing` (body not in the header).
Offset of the first byte of the located unit: behind the 3-byte or 4-byte start
code at `curr_start_code_offset_` ("the code itself is excluded from the unit's byte
span"). -/
def nalBegin (C : Nat) (s : RocVideoESParser) : Nat :=
  s.curr_start_code_offset_ +
    (if GetByte C s (s.curr_start_code_offset_ + 2) = some 1 then 3 else 4)

/-- Modelled from the spec: `CopyNalUnitFromRing` (body not in the header).  "Two
consecutive located start codes delimit exactly one NAL unit (the code itself is
excluded from the unit's byte span)"; "copies that byte range into the
`OutputUnit` ...; after copying, calls `advance_read` on the ring buffer up to the
unit's end offset". -/
def CopyNalUnitFromRing (C : Nat) (s : RocVideoESParser) : RocVideoESParser :=
  let first := nalBegin C s
  let size := s.next_start_code_offset_ - first
  match ReadBytes C s first size with
  | none => s
  | some bytes =>
    SetReadPointer C { s with
      pic_data_ := s.pic_data_ ++ bytes
      pic_data_size_ := s.pic_data_size_ + size
      curr_byte_offset_ := 0
      num_start_code_ := 0
      curr_start_code_offset_ := 0
      next_start_code_offset_ := 0 } s.next_start_code_offset_

/-- What `GetPicData` hands back through `p_pic_data` and `pic_size`: the bytes of
one unit, or the terminal signal. -/
inductive PicResult where
  | picture (data : List Nat)
  | endOfStream
deriving DecidableEq, Repr

/-- Modelled from the spec: the loop of `GetPicDataAvcHevc` (body not in the
header).  Units are located and appended to the picture until a unit that is the
first slice of the next picture is seen, which is left in the ring for the next
call.  On a failed search "it truncates the current unit at the last known-good
boundary and treats the remainder as end-of-stream".  `check` stands for
`CheckAvcNalForSlice` / `CheckHevcNalForSlice`: from the state and the start-code
offset it yields `(slice_flag, first_slice_flag)`; the design document leaves its
heuristic open, so it is a parameter. -/
def GetPicDataAvcHevcLoop (C : Nat) (check : RocVideoESParser → Nat → Bool × Bool) :
    Nat → Nat → RocVideoESParser → RocVideoESParser
  | 0, _, s => s
  | fuel + 1, num_slices, s =>
    if s.end_of_stream_ then s
    else
      let r := FindStartCode C (s.p_stream_file_.data.length + 1) s
      if r.1 = false then { r.2 with end_of_stream_ := true }
      else if r.2.end_of_stream_ then r.2
      else
        let flags := check r.2 r.2.curr_start_code_offset_
        if flags.1 ∧ flags.2 ∧ 0 < num_slices then r.2
        else
          GetPicDataAvcHevcLoop C check fuel (if flags.1 then num_slices + 1 else num_slices)
            (CopyNalUnitFromRing C r.2)

/-- Modelled from the spec: the value `GetPicData` reports (body not in the header):
"a terminal signal when the stream is exhausted", that is when nothing was assembled
and the stream has ended, and the assembled unit otherwise. -/
def picResult (s : RocVideoESParser) : PicResult :=
  if s.pic_data_size_ = 0 ∧ s.end_of_stream_ then PicResult.endOfStream
  else PicResult.picture s.pic_data_

/-- Modelled from the spec: `GetPicDataAvcHevc` (body not in the header).  The
output unit is "reused/cleared across calls ... but logically replaced each call";
the call returns "exactly one decodable unit ..., or a terminal signal when the
stream is exhausted".  Every unit copied takes at least one byte out of ring and
file, which bounds the loop. -/
def GetPicDataAvcHevc (C : Nat) (check : RocVideoESParser → Nat → Bool × Bool)
    (s : RocVideoESParser) : PicResult × RocVideoESParser :=
  let s := { s with pic_data_ := [], pic_data_size_ := 0 }
  let s := GetPicDataAvcHevcLoop C check
    (GetDataSizeInRB C s + s.p_stream_file_.data.length + 1) 0 s
  let s := if s.pic_data_size_ = 0 then s else { s with num_pictures_ := s.num_pictures_ + 1 }
  (picResult s, s)

/-! ### AV1: OBU header, leb128 size, temporal units -/

/-- Modelled from the spec: the leb128 loop of `ReadObuHeaderAndSize` (body not in
the header).  "Continuation bit = high bit of each byte, 7 payload bits per byte,
up to the encoding's maximum byte count"; "decoding fails if the continuation
chain exceeds the format's maximum byte count or runs past buffered data".  `n`
is the number of bytes still allowed, `i` the index of the next byte; the result
is the value and the number of bytes read. -/
def leb128Loop (peek : Nat → Option Nat) : Nat → Nat → Nat → Option (Nat × Nat)
  | 0, _, _ => none
  | n + 1, i, value =>
    match peek i with
    | none => none
    | some b =>
      -- value |= (b & 0x7f) << (7 * i)
      let value := value + (b % 128) * 2 ^ (7 * i)
      -- if (!(b & 0x80)) break
      if b / 128 % 2 = 1 then leb128Loop peek n (i + 1) value else some (value, i + 1)

/-- Modelled from the spec: the largest number of bytes of a leb128 size ("every
valid 1–8 byte encoding"); the constant is not in the header. -/
def LEB128_MAX_BYTES : Nat := 8

/-- Modelled from the spec: the leb128 decoder of `ReadObuHeaderAndSize` (body not in
the header): the loop above, allowed at most `LEB128_MAX_BYTES` bytes. -/
def ReadLeb128 (peek : Nat → Option Nat) : Option (Nat × Nat) :=
  leb128Loop peek LEB128_MAX_BYTES 0 0

/-- Specification side of the round trip: the leb128 encoding of `v` in at most
`n` bytes, "little-endian base-128", seven bits per byte and the high bit set on
every byte but the last. -/
def leb128Encode : Nat → Nat → List Nat
  | 0, _ => []
  | n + 1, v => if v < 128 then [v] else (v % 128 + 128) :: leb128Encode n (v / 128)

/-- The bytes form one continuation chain: every byte but the last has the high
bit set, the last has it clear. -/
def leb128Chain : List Nat → Prop
  | [] => False
  | b :: bs => (bs = [] ∧ b < 128) ∨ (128 ≤ b ∧ b < 256 ∧ leb128Chain bs)

/-- A well-formed leb128 encoding: a continuation chain of 1 to 8 bytes. -/
def ValidLeb128 (enc : List Nat) : Prop :=
  leb128Chain enc ∧ enc.length ≤ LEB128_MAX_BYTES

/-- The number a chain of leb128 bytes stands for: seven bits per byte, least
significant group first. -/
def leb128Value : List Nat → Nat
  | [] => 0
  | b :: bs => b % 128 + 128 * leb128Value bs

/-- Modelled from the spec: the `obu_type` of a temporal delimiter OBU ("`obu_type` =
temporal delimiter"); the value 2 is that of the AV1 format and is not in the
header. -/
def OBU_TEMPORAL_DELIMITER : Nat := 2

/-- The value an `int` (32 bits, two's complement) holds after being assigned the
number `x`: `x` itself below `2^31`, and `x` reduced modulo `2^32` into the range
`-2^31 .. 2^31 - 1` otherwise. -/
def toInt32 (x : Nat) : Int :=
  if x % 2 ^ 32 < 2 ^ 31 then ((x % 2 ^ 32 : Nat) : Int)
  else ((x % 2 ^ 32 : Nat) : Int) - 2 ^ 32

/-- Modelled from the spec: `ReadObuHeaderAndSize` (body not in the header).
"Reads an OBU header byte to extract `obu_type` and whether an explicit size field
is present; if present, decodes a little-endian base-128 variable-length integer
... giving the payload size; total OBU size = header bytes + optional extension
byte + leb128-encoded-size bytes + payload size."  The bit positions are those of
the AV1 OBU header: type in bits 3 to 6, extension flag in bit 2, size flag in
bit 1.  The decoded value has up to 56 bits (8 bytes of 7 bits) and is held in a
64-bit accumulator; the total goes into the header's `int obu_size_`, which keeps
32 bits of it (`toInt32`).  The result is the success flag, `*obu_type` and the
state. -/
def ReadObuHeaderAndSize (C : Nat) (s : RocVideoESParser) : Bool × Nat × RocVideoESParser :=
  match GetByte C s s.obu_byte_offset_ with
  | none => (false, 0, s)
  | some hdr =>
    let obu_type := hdr / 8 % 16
    let extension_flag := hdr / 4 % 2
    let has_size_field := hdr / 2 % 2
    let header_bytes := 1 + extension_flag
    if has_size_field = 1 then
      match ReadLeb128 (fun i => GetByte C s (s.obu_byte_offset_ + header_bytes + i)) with
      | none => (false, obu_type, s)
      | some r => (true, obu_type, { s with obu_size_ := toInt32 (header_bytes + r.2 + r.1) })
    else (true, obu_type, { s with obu_size_ := toInt32 header_bytes })

/-- Modelled from the spec: `CopyObuFromRing` (body not in the header).  The OBU of
`obu_size_` bytes at `obu_byte_offset_` is appended to the output unit and the
read pointer advanced behind it; header: "return true if success".  A size that
wrapped to a negative `int` names no byte range, and the copy fails. -/
def CopyObuFromRing (C : Nat) (s : RocVideoESParser) : Bool × RocVideoESParser :=
  if s.obu_size_ < 0 then (false, s)
  else
    match ReadBytes C s s.obu_byte_offset_ s.obu_size_.toNat with
    | none => (false, s)
    | some bytes =>
      (true, SetReadPointer C { s with
        pic_data_ := s.pic_data_ ++ bytes
        pic_data_size_ := s.pic_data_size_ + s.obu_size_.toNat
        obu_byte_offset_ := 0 } (s.obu_byte_offset_ + s.obu_size_.toNat))

/-- Modelled from the spec: the loop of `GetPicDataAv1` (body not in the header).
"A temporal unit boundary is declared when a temporal-delimiter OBU is seen after
at least one non-delimiter OBU has been accumulated; the delimiter itself belongs
to the new temporal unit."  A header or OBU that is not fully buffered forces a
fetch and a retry; when the source has nothing more the remainder is treated as
end of stream.  `num_obus` counts the non-delimiter OBUs of this unit. -/
def GetPicDataAv1Loop (C : Nat) : Nat → Nat → RocVideoESParser → RocVideoESParser
  | 0, _, s => s
  | fuel + 1, num_obus, s =>
    if s.end_of_stream_ then s
    else
      let h := ReadObuHeaderAndSize C s
      if h.1 = false then
        let r := FetchBitStream C h.2.2
        if r.1 = 0 then { r.2 with end_of_stream_ := true }
        else GetPicDataAv1Loop C fuel num_obus r.2
      else if h.2.1 = OBU_TEMPORAL_DELIMITER ∧ 0 < num_obus then h.2.2
      else
        let c := CopyObuFromRing C h.2.2
        if c.1 = false then
          let r := FetchBitStream C c.2
          if r.1 = 0 then { r.2 with end_of_stream_ := true }
          else GetPicDataAv1Loop C fuel num_obus r.2
        else if h.2.1 = OBU_TEMPORAL_DELIMITER then
          GetPicDataAv1Loop C fuel num_obus { c.2 with num_td_obus_ := c.2.num_td_obus_ + 1 }
        else GetPicDataAv1Loop C fuel (num_obus + 1) c.2

/-- Modelled from the spec: `GetPicDataAv1` (body not in the header): one temporal
unit per call, or the terminal signal. -/
def GetPicDataAv1 (C : Nat) (s : RocVideoESParser) : PicResult × RocVideoESParser :=
  let s := { s with pic_data_ := [], pic_data_size_ := 0 }
  let s := GetPicDataAv1Loop C
    (2 * (GetDataSizeInRB C s + s.p_stream_file_.data.length) + 2) 0 s
  let s := if s.pic_data_size_ = 0 then s else { s with num_temp_units_ := s.num_temp_units_ + 1 }
  (picResult s, s)

/-! ### IVF container -/

/-- Modelled from the spec: the "`fetch()` retry by the caller" of a failed peek in
the IVF strategy (body not in the header): fetch until `n` bytes are buffered or
the source delivers nothing more. -/
def FetchUntil (C n : Nat) : Nat → RocVideoESParser → RocVideoESParser
  | 0, s => s
  | fuel + 1, s =>
    if n ≤ GetDataSizeInRB C s then s
    else
      let r := FetchBitStream C s
      if r.1 = 0 then r.2 else FetchUntil C n fuel r.2

/-- Modelled from the spec: the fields of the IVF header are "all little-endian"; the
value of a byte list read that way. -/
def littleEndian : List Nat → Nat
  | [] => 0
  | b :: bs => b + 256 * littleEndian bs

/-- Modelled from the spec: `CheckIvfFileHeader` (body not in the header).  Header:
"check the 32 byte stream for IVF file header identity"; spec: "if they match the
4-byte magic identifying the supported container, interprets fields at fixed byte
offsets (... header size ...) and advances the read pointer past the full declared
header size; otherwise leaves the buffer untouched".  The layout puts the 2-byte
little-endian header size at bytes 6 and 7.  The value of the magic is not in the
design document and is the parameter `magic`. -/
def CheckIvfFileHeader (C : Nat) (magic : List Nat) (s : RocVideoESParser)
    (stream : List Nat) : Bool × RocVideoESParser :=
  if stream.take 4 = magic then
    (true, SetReadPointer C s (littleEndian ((stream.drop 6).take 2)))
  else (false, s)

/-- Modelled from the spec: the one-shot container check at the head of
`GetPicDataIvfAv1` (body not in the header).  "On the first read of a stream, peeks
the first 32 bytes ...  This check runs at most once per stream instance";
`ivf_file_header_read_` is the "indicator if IVF file header has been checked".
The ring is filled first; of a stream that ends before its 32nd byte the bytes
there are get checked, so that "a buffer starting with the correct 4-byte magic
and a declared header size is fully skipped" whatever follows the two. -/
def ReadIvfFileHeader (C : Nat) (magic : List Nat) (s : RocVideoESParser) :
    RocVideoESParser :=
  if s.ivf_file_header_read_ then s
  else
    let s := FetchUntil C 32 (s.p_stream_file_.data.length + 1) s
    let s :=
      match ReadBytes C s 0 (min 32 (GetDataSizeInRB C s)) with
      | none => s
      | some stream => (CheckIvfFileHeader C magic s stream).2
    { s with ivf_file_header_read_ := true }

/-- Modelled from the spec: `GetPicDataIvfAv1` (body not in the header).  After the
one-shot header check, each temporal unit is "one 4-byte little-endian frame-size
prefix" followed by the payload; a frame that cannot be completed ends the
stream. -/
def GetPicDataIvfAv1 (C : Nat) (magic : List Nat) (s : RocVideoESParser) :
    PicResult × RocVideoESParser :=
  let s := ReadIvfFileHeader C magic s
  let s := { s with pic_data_ := [], pic_data_size_ := 0 }
  if s.end_of_stream_ then (picResult s, s)
  else
    let s := FetchUntil C 4 (s.p_stream_file_.data.length + 1) s
    match ReadBytes C s 0 4 with
    | none => let s := { s with end_of_stream_ := true }; (picResult s, s)
    | some size_bytes =>
      let frame_size := littleEndian size_bytes
      let s := FetchUntil C (4 + frame_size) (s.p_stream_file_.data.length + 1) s
      match ReadBytes C s 4 frame_size with
      | none => let s := { s with end_of_stream_ := true }; (picResult s, s)
      | some bytes =>
        let s := SetReadPointer C { s with
          pic_data_ := bytes
          pic_data_size_ := frame_size
          num_temp_units_ := s.num_temp_units_ + 1 } (4 + frame_size)
        (picResult s, s)

/-! ### Entry point -/

/-- Modelled from the spec: the "small closed set of parser strategies selected once
at stream open"; the header has the three `GetPicData...` methods and no field
that records the choice. -/
inductive StreamType where
  | AvcHevc
  | Av1
  | IvfAv1
deriving DecidableEq, Repr

/-- What the stream was opened with: ring capacity, stream type, NAL classifier and
IVF magic. -/
structure ParserSetup where
  C : Nat
  stream_type : StreamType
  check : RocVideoESParser → Nat → Bool × Bool
  magic : List Nat

/-- Modelled from the spec: `GetPicData` (body not in the header).
"`get_next_unit() -> (pointer, length)` produces exactly one decodable unit per
call, or a terminal signal when the stream is exhausted", through the strategy of
the stream type. -/
def GetPicData (cfg : ParserSetup) (s : RocVideoESParser) : PicResult × RocVideoESParser :=
  match cfg.stream_type with
  | StreamType.AvcHevc => GetPicDataAvcHevc cfg.C cfg.check s
  | StreamType.Av1 => GetPicDataAv1 cfg.C s
  | StreamType.IvfAv1 => GetPicDataIvfAv1 cfg.C cfg.magic s

/-- The output buffer and its recorded size agree. -/
def OutOK (s : RocVideoESParser) : Prop :=
  s.pic_data_size_ = s.pic_data_.length

/-! ### Annex-B streams (specification side) -/

/-- A NAL unit of a synthetic stream: its payload and whether its start code is the
4-byte `00 00 00 01` or the 3-byte `00 00 01`. -/
structure NalUnit where
  long_start_code : Bool
  payload : List Nat

/-- The start code in front of a unit. -/
def startCode (u : NalUnit) : List Nat :=
  if u.long_start_code then [0, 0, 0, 1] else [0, 0, 1]

/-- The Annex-B byte stream of a list of units. -/
def annexB : List NalUnit → List Nat
  | [] => []
  | u :: us => startCode u ++ u.payload ++ annexB us

/-- A small setup for evaluation: ring of 16 bytes, every unit taken as the first
slice of a picture. -/
def smallSetup : ParserSetup where
  C := 16
  stream_type := StreamType.AvcHevc
  check := fun _ _ => (true, true)
  magic := [68, 75, 73, 70]

/-- A two-unit stream `00 00 01 65 01 02 03 | 00 00 00 01 41 07 08`. -/
def smallUnits : List NalUnit :=
  [⟨false, [101, 1, 2, 3]⟩, ⟨true, [65, 7, 8]⟩]

/-- The state after the two pictures of `smallUnits` have been returned. -/
def smallDrained : RocVideoESParser :=
  (GetPicData smallSetup
    (GetPicData smallSetup (OpenStream (fun _ => 0) (annexB smallUnits))).2).2

/-! ## Theorems -/

section Decoder

variable {W V P D : Type}

/-- C7: the ring capacity `BS_RING_SIZE` is exactly 16 MiB = 16777216 bytes, and
that value fits the 32-bit unsigned offsets `read_ptr_` and `write_ptr_`. -/
theorem BS_RING_SIZE_value :
    BS_RING_SIZE = 16 * 1024 * 1024 ∧ BS_RING_SIZE = 16777216 ∧ BS_RING_SIZE < 2 ^ 32 := by
  refine ⟨rfl, ?_, ?_⟩ <;> norm_num [BS_RING_SIZE]

@[simp] theorem ERR_world (e : Env W) (m : String) : (ERR e m).world = e.world := rfl

@[simp] theorem ERR_calls (e : Env W) (m : String) : (ERR e m).calls = e.calls := rfl

@[simp] theorem call_world (e : Env W) (c : Call) (w : W) : (e.call c w).world = w := rfl

@[simp] theorem call_calls (e : Env W) (c : Call) (w : W) :
    (e.call c w).calls = e.calls ++ [c] := rfl

theorem ite_ERR_world (c : Prop) [Decidable c] (e : Env W) (m : String) :
    (if c then ERR e m else e).world = e.world := by
  split <;> rfl

theorem ite_ERR_calls (c : Prop) [Decidable c] (e : Env W) (m : String) :
    (if c then ERR e m else e).calls = e.calls := by
  split <;> rfl

/-- The status `InitHIP` returns, as a function of the four HIP results. -/
theorem InitHIP_fst (X : Externals W V P D) (dec : RocDecoder V) (device_id : Int)
    (e : Env W) :
    (InitHIP X dec device_id e).1 =
      if (X.hipGetDeviceCount e.world dec.num_devices_).1 = hipError_t.hipSuccess ∧
          1 ≤ (X.hipGetDeviceCount e.world dec.num_devices_).2.1 ∧
          device_id < (X.hipGetDeviceCount e.world dec.num_devices_).2.1 ∧
          (X.hipSetDevice (X.hipGetDeviceCount e.world dec.num_devices_).2.2 device_id).1
            = hipError_t.hipSuccess ∧
          (X.hipGetDeviceProperties
            (X.hipSetDevice (X.hipGetDeviceCount e.world dec.num_devices_).2.2 device_id).2
            dec.hip_dev_prop_ device_id).1 = hipError_t.hipSuccess ∧
          (X.hipStreamCreate
            (X.hipGetDeviceProperties
              (X.hipSetDevice (X.hipGetDeviceCount e.world dec.num_devices_).2.2 device_id).2
              dec.hip_dev_prop_ device_id).2.2 dec.hip_stream_).1 = hipError_t.hipSuccess
      then rocDecStatus.ROCDEC_SUCCESS else rocDecStatus.ROCDEC_DEVICE_INVALID := by
  simp only [InitHIP, ite_ERR_world, call_world]
  generalize X.hipGetDeviceCount e.world dec.num_devices_ = r1
  generalize X.hipSetDevice r1.2.2 device_id = r2
  generalize X.hipGetDeviceProperties r2.2 dec.hip_dev_prop_ device_id = r3
  generalize X.hipStreamCreate r3.2.2 dec.hip_stream_ = r4
  by_cases h1 : r1.1 = hipError_t.hipSuccess <;>
  by_cases h2 : r2.1 = hipError_t.hipSuccess <;>
  by_cases h3 : r3.1 = hipError_t.hipSuccess <;>
  by_cases h4 : r4.1 = hipError_t.hipSuccess <;>
  by_cases h5 : r1.2.1 < 1 <;>
  by_cases h6 : device_id ≥ r1.2.1 <;>
  simp [h1, h2, h3, h4, h5, h6] <;>
  (split_ifs with h <;> first | rfl | (exfalso; omega))

/-- The external calls `InitHIP` issues: always the same four, in order. -/
theorem InitHIP_calls (X : Externals W V P D) (dec : RocDecoder V) (device_id : Int)
    (e : Env W) :
    (InitHIP X dec device_id e).2.2.calls =
      e.calls ++ [Call.hipGetDeviceCount, Call.hipSetDevice device_id,
        Call.hipGetDeviceProperties device_id, Call.hipStreamCreate] := by
  simp only [InitHIP, ite_ERR_calls, call_calls, List.append_assoc, List.singleton_append,
    List.cons_append, List.nil_append]

/-- `InitHIP` leaves the VA-API decoder object alone. -/
theorem InitHIP_va (X : Externals W V P D) (dec : RocDecoder V) (device_id : Int)
    (e : Env W) :
    (InitHIP X dec device_id e).2.1.va_video_decoder_ = dec.va_video_decoder_ := by
  simp only [InitHIP]

/-- C8: `InitHIP` returns `ROCDEC_SUCCESS` exactly when `hipGetDeviceCount`
succeeded, the device count is at least 1, `device_id` is below the count and
`hipSetDevice`, `hipGetDeviceProperties` and `hipStreamCreate` all succeeded; in
every other case it returns `ROCDEC_DEVICE_INVALID`.  A negative `device_id` is
accepted when the HIP calls accept it, and the four HIP calls are issued in
order whatever the earlier results were. -/
theorem InitHIP_spec (X : Externals W V P D) (dec : RocDecoder V) (device_id : Int)
    (e : Env W) :
    let cnt := X.hipGetDeviceCount e.world dec.num_devices_
    let sd := X.hipSetDevice cnt.2.2 device_id
    let gp := X.hipGetDeviceProperties sd.2 dec.hip_dev_prop_ device_id
    let sc := X.hipStreamCreate gp.2.2 dec.hip_stream_
    let ok := cnt.1 = hipError_t.hipSuccess ∧ 1 ≤ cnt.2.1 ∧ device_id < cnt.2.1 ∧
      sd.1 = hipError_t.hipSuccess ∧ gp.1 = hipError_t.hipSuccess ∧
      sc.1 = hipError_t.hipSuccess
    ((InitHIP X dec device_id e).1 = rocDecStatus.ROCDEC_SUCCESS ↔ ok) ∧
    (¬ ok → (InitHIP X dec device_id e).1 = rocDecStatus.ROCDEC_DEVICE_INVALID) ∧
    (device_id < 0 → cnt.1 = hipError_t.hipSuccess → 1 ≤ cnt.2.1 →
      sd.1 = hipError_t.hipSuccess → gp.1 = hipError_t.hipSuccess →
      sc.1 = hipError_t.hipSuccess →
      (InitHIP X dec device_id e).1 = rocDecStatus.ROCDEC_SUCCESS) ∧
    (InitHIP X dec device_id e).2.2.calls =
      e.calls ++ [Call.hipGetDeviceCount, Call.hipSetDevice device_id,
        Call.hipGetDeviceProperties device_id, Call.hipStreamCreate] := by
  intro cnt sd gp sc ok
  have h := InitHIP_fst X dec device_id e
  refine ⟨?_, ?_, ?_, InitHIP_calls X dec device_id e⟩
  · rw [h]
    by_cases hok : ok
    · rw [if_pos hok]; exact ⟨fun _ => hok, fun _ => rfl⟩
    · rw [if_neg hok]; exact ⟨fun hc => (by cases hc), fun hc => absurd hc hok⟩
  · intro hok
    rw [h, if_neg hok]
  · intro hneg h1 h2 h3 h4 h5
    rw [h, if_pos ⟨h1, h2, lt_of_lt_of_le hneg (le_trans (by decide) h2), h3, h4, h5⟩]

/-- C9: when `InitHIP` fails, `InitializeDecoder` returns that very status and
the VA-API decoder is not called (no call is recorded beyond those of `InitHIP`
and the decoder object is as `InitHIP` left it); when `InitHIP` succeeds the
result is the status of the VA-API decoder's `InitializeDecoder`, called once
with the architecture name.  So the result is `ROCDEC_SUCCESS` exactly when both
steps succeed. -/
theorem InitializeDecoder_spec (X : Externals W V P D) (dec : RocDecoder V) (e : Env W) :
    let h := InitHIP X dec dec.device_id_ e
    let va := X.vaInitializeDecoder h.2.1.va_video_decoder_ h.2.1.hip_dev_prop_.gcnArchName
    let r := InitializeDecoder X dec e
    (h.1 ≠ rocDecStatus.ROCDEC_SUCCESS →
      r.1 = h.1 ∧ r.2.2.calls = h.2.2.calls ∧
      r.2.1.va_video_decoder_ = dec.va_video_decoder_) ∧
    (h.1 = rocDecStatus.ROCDEC_SUCCESS →
      r.1 = va.1 ∧
      r.2.2.calls = h.2.2.calls ++ [Call.vaInitializeDecoder h.2.1.hip_dev_prop_.gcnArchName] ∧
      r.2.1.va_video_decoder_ = va.2) ∧
    (r.1 = rocDecStatus.ROCDEC_SUCCESS ↔
      h.1 = rocDecStatus.ROCDEC_SUCCESS ∧ va.1 = rocDecStatus.ROCDEC_SUCCESS) := by
  intro h va r
  have hr : r = InitializeDecoder X dec e := rfl
  clear_value r
  simp only [InitializeDecoder] at hr
  by_cases h1 : h.1 = rocDecStatus.ROCDEC_SUCCESS
  · have h1' : (InitHIP X dec dec.device_id_ e).1 = rocDecStatus.ROCDEC_SUCCESS := h1
    by_cases h2 : va.1 = rocDecStatus.ROCDEC_SUCCESS
    · have h2' : (X.vaInitializeDecoder (InitHIP X dec dec.device_id_ e).2.1.va_video_decoder_
          (InitHIP X dec dec.device_id_ e).2.1.hip_dev_prop_.gcnArchName).1
          = rocDecStatus.ROCDEC_SUCCESS := h2
      simp only [h1', h2', ne_eq, not_true_eq_false, if_false] at hr
      subst hr
      refine ⟨fun hc => absurd h1 hc, fun _ => ⟨h2.symm, rfl, rfl⟩, ?_⟩
      exact ⟨fun _ => ⟨h1, h2⟩, fun _ => rfl⟩
    · have h2' : ¬ (X.vaInitializeDecoder (InitHIP X dec dec.device_id_ e).2.1.va_video_decoder_
          (InitHIP X dec dec.device_id_ e).2.1.hip_dev_prop_.gcnArchName).1
          = rocDecStatus.ROCDEC_SUCCESS := h2
      simp only [h1', h2', ne_eq, not_true_eq_false, not_false_eq_true, if_false,
        if_true] at hr
      subst hr
      refine ⟨fun hc => absurd h1 hc, fun _ => ⟨rfl, rfl, rfl⟩, ?_⟩
      exact ⟨fun hc => absurd hc h2, fun hc => absurd hc.2 h2⟩
  · have h1' : ¬ (InitHIP X dec dec.device_id_ e).1 = rocDecStatus.ROCDEC_SUCCESS := h1
    simp only [h1', ne_eq, not_false_eq_true, if_true] at hr
    subst hr
    refine ⟨fun _ => ⟨rfl, rfl, InitHIP_va X dec dec.device_id_ e⟩, fun hc => absurd hc h1, ?_⟩
    exact ⟨fun hc => absurd hc h1, fun hc => absurd hc.1 h1⟩

/-- C10: `reconfigureDecoder`, `mapVideoFrame` and `unMapVideoFrame` return
`ROCDEC_NOT_IMPLEMENTED` for all arguments and leave the decoder object, the
out-arrays and the environment (hence the record of external calls) as they
were; `decodeFrame` and `getDecodeStatus` return the status that the VA-API
decoder's `SubmitDecode` and `GetDecodeStatus` produce for the same arguments. -/
theorem stubs_and_passthrough {R Q : Type} (X : Externals W V P D) (dec : RocDecoder V)
    (e : Env W) (pDecReconfigParams : R) (nPicIdx : Int) (pDevMemPtr pHorizontalPitch : List Nat)
    (pVidPostprocParams : Q) (pMappedDevPtr : Nat) (pPicParams : P) (pDecodeStatus : D) :
    reconfigureDecoder dec pDecReconfigParams e
      = (rocDecStatus.ROCDEC_NOT_IMPLEMENTED, dec, e) ∧
    mapVideoFrame dec nPicIdx pDevMemPtr pHorizontalPitch pVidPostprocParams e
      = (rocDecStatus.ROCDEC_NOT_IMPLEMENTED, pDevMemPtr, pHorizontalPitch, dec, e) ∧
    unMapVideoFrame dec pMappedDevPtr e = (rocDecStatus.ROCDEC_NOT_IMPLEMENTED, dec, e) ∧
    (decodeFrame X dec pPicParams e).1
      = (X.vaSubmitDecode dec.va_video_decoder_ pPicParams).1 ∧
    (getDecodeStatus X dec nPicIdx pDecodeStatus e).1
      = (X.vaGetDecodeStatus dec.va_video_decoder_ nPicIdx pDecodeStatus).1 :=
  ⟨rfl, rfl, rfl, rfl, rfl⟩

end Decoder

/-! ### Ring buffer lemmas -/

section Ring

theorem mod_two_cases (a C : Nat) (h : a < 2 * C) :
    a % C = if a < C then a else a - C := by
  split_ifs with h1
  · exact Nat.mod_eq_of_lt h1
  · rw [Nat.mod_eq_sub_mod (by omega), Nat.mod_eq_of_lt (by omega)]

theorem dataSize_cases (C : Nat) (s : RocVideoESParser) (h : RingWF C s) :
    GetDataSizeInRB C s =
      if s.read_ptr_ ≤ s.write_ptr_ then s.write_ptr_ - s.read_ptr_
      else s.write_ptr_ + C - s.read_ptr_ := by
  obtain ⟨hr, hw⟩ := h
  unfold GetDataSizeInRB
  rw [mod_two_cases _ _ (by omega)]
  split_ifs <;> omega

theorem dataSize_lt (C : Nat) (s : RocVideoESParser) (h : RingWF C s) :
    GetDataSizeInRB C s < C := by
  unfold GetDataSizeInRB
  exact Nat.mod_lt _ (by obtain ⟨hr, _⟩ := h; omega)

theorem add_mod_inj (C a i j : Nat) (hi : i < C) (hj : j < C)
    (h : (a + i) % C = (a + j) % C) : i = j := by
  rcases Nat.lt_trichotomy i j with hlt | heq | hgt
  · exfalso
    have h1 : (a + i) ≡ (a + j) [MOD C] := h
    rw [Nat.modEq_iff_dvd' (by omega)] at h1
    have := Nat.le_of_dvd (by omega) h1
    omega
  · exact heq
  · exfalso
    have h1 : (a + j) ≡ (a + i) [MOD C] := h.symm
    rw [Nat.modEq_iff_dvd' (by omega)] at h1
    have := Nat.le_of_dvd (by omega) h1
    omega

theorem ringStore_other (C : Nat) (bytes : List Nat) :
    ∀ (ring : Nat → Nat) (pos j : Nat),
      (∀ k, k < bytes.length → j ≠ (pos + k) % C) →
      ringStore C ring pos bytes j = ring j := by
  induction bytes with
  | nil => intro ring pos j _; rfl
  | cons b bs ih =>
    intro ring pos j hj
    simp only [ringStore]
    rw [ih]
    · have h0 := hj 0 (by simp)
      simp only [Nat.add_zero] at h0
      simp [h0]
    · intro k hk
      have := hj (k + 1) (by simp; omega)
      rwa [show pos + 1 + k = pos + (k + 1) by omega]

theorem ringStore_get (C : Nat) (bytes : List Nat) :
    ∀ (ring : Nat → Nat) (pos k : Nat), bytes.length ≤ C → k < bytes.length →
      ringStore C ring pos bytes ((pos + k) % C) = bytes.getD k 0 := by
  induction bytes with
  | nil => intro ring pos k _ hk; simp at hk
  | cons b bs ih =>
    intro ring pos k hC hk
    simp only [List.length_cons] at hC hk
    simp only [ringStore]
    cases k with
    | zero =>
      rw [ringStore_other]
      · simp
      · intro k hk2 heq
        have := add_mod_inj C pos 0 (1 + k) (by omega) (by omega)
          (by rw [heq]; congr 1; omega)
        omega
    | succ k =>
      have := ih (fun j => if j = pos % C then b else ring j) (pos + 1) k (by omega) (by omega)
      rw [show pos + (k + 1) = pos + 1 + k by omega, this]
      simp

theorem buffered_length (C : Nat) (s : RocVideoESParser) :
    (buffered C s).length = GetDataSizeInRB C s := by
  simp [buffered]

theorem buffered_getElem? (C : Nat) (s : RocVideoESParser) (i : Nat) :
    (buffered C s)[i]? =
      if i < GetDataSizeInRB C s then some (s.bs_ring_ ((s.read_ptr_ + i) % C)) else none := by
  unfold buffered
  rw [List.getElem?_map]
  split_ifs with h
  · rw [List.getElem?_range h]; rfl
  · rw [List.getElem?_eq_none (by simpa using h)]; rfl

theorem GetByte_eq (C : Nat) (s : RocVideoESParser) (i : Nat) :
    GetByte C s i = (buffered C s)[i]? := by
  rw [buffered_getElem?]; rfl

theorem GetByte_fun_eq (C : Nat) (s : RocVideoESParser) :
    GetByte C s = fun i => (buffered C s)[i]? := by
  funext i; exact GetByte_eq C s i

theorem write_ptr_eq (C : Nat) (s : RocVideoESParser) (h : RingWF C s) :
    s.write_ptr_ = (s.read_ptr_ + GetDataSizeInRB C s) % C := by
  rw [dataSize_cases C s h]
  obtain ⟨hr, hw⟩ := h
  split_ifs with h1
  · rw [show s.read_ptr_ + (s.write_ptr_ - s.read_ptr_) = s.write_ptr_ by omega,
      Nat.mod_eq_of_lt hw]
  · rw [show s.read_ptr_ + (s.write_ptr_ + C - s.read_ptr_) = s.write_ptr_ + C by omega,
      Nat.add_mod_right, Nat.mod_eq_of_lt hw]

theorem write_ptr_add (C : Nat) (s : RocVideoESParser) (h : RingWF C s) (k : Nat) :
    (s.write_ptr_ + k) % C = (s.read_ptr_ + (GetDataSizeInRB C s + k)) % C := by
  conv_lhs => rw [write_ptr_eq C s h]
  rw [Nat.mod_add_mod, Nat.add_assoc]

/-- The state `FetchBitStream` leaves, field by field. -/
theorem FetchBitStream_snd (C : Nat) (s : RocVideoESParser) :
    (FetchBitStream C s).2 =
      if C - 1 - GetDataSizeInRB C s = 0 then s
      else { s with
        p_stream_file_ := (fread s.p_stream_file_ (C - 1 - GetDataSizeInRB C s)).2
        bs_ring_ := ringStore C s.bs_ring_ s.write_ptr_
          (s.p_stream_file_.data.take (C - 1 - GetDataSizeInRB C s))
        write_ptr_ := (s.write_ptr_ +
          (s.p_stream_file_.data.take (C - 1 - GetDataSizeInRB C s)).length) % C
        end_of_file_ :=
          if (s.p_stream_file_.data.take (C - 1 - GetDataSizeInRB C s)).length = 0 then true
          else s.end_of_file_ } := by
  unfold FetchBitStream
  simp only [fread]
  split_ifs <;> simp_all

theorem FetchBitStream_fst (C : Nat) (s : RocVideoESParser) :
    (FetchBitStream C s).1 =
      (s.p_stream_file_.data.take (C - 1 - GetDataSizeInRB C s)).length := by
  unfold FetchBitStream
  simp only [fread]
  split_ifs with h1 h2
  · simp [h1]
  · simp [h2]
  · rfl

theorem FetchBitStream_wf (C : Nat) (s : RocVideoESParser) (h : RingWF C s) :
    RingWF C (FetchBitStream C s).2 := by
  rw [FetchBitStream_snd]
  by_cases h1 : C - 1 - GetDataSizeInRB C s = 0
  · rw [if_pos h1]; exact h
  · rw [if_neg h1]; exact ⟨h.1, Nat.mod_lt _ (by have := h.1; omega)⟩

theorem FetchBitStream_read_ptr (C : Nat) (s : RocVideoESParser) :
    (FetchBitStream C s).2.read_ptr_ = s.read_ptr_ := by
  rw [FetchBitStream_snd]
  by_cases h1 : C - 1 - GetDataSizeInRB C s = 0
  · rw [if_pos h1]
  · rw [if_neg h1]

theorem FetchBitStream_dataSize (C : Nat) (s : RocVideoESParser) (h : RingWF C s) :
    GetDataSizeInRB C (FetchBitStream C s).2 =
      GetDataSizeInRB C s + (FetchBitStream C s).1 := by
  rw [FetchBitStream_fst]
  have hU := dataSize_lt C s h
  have hlen : (s.p_stream_file_.data.take (C - 1 - GetDataSizeInRB C s)).length
      ≤ C - 1 - GetDataSizeInRB C s := by
    rw [List.length_take]; exact Nat.min_le_left _ _
  generalize hn : (s.p_stream_file_.data.take (C - 1 - GetDataSizeInRB C s)).length = n at hlen
  have hwf := FetchBitStream_wf C s h
  have hw := write_ptr_eq C _ hwf
  rw [FetchBitStream_read_ptr] at hw
  have hw2 : (FetchBitStream C s).2.write_ptr_ = (s.read_ptr_ + (GetDataSizeInRB C s + n)) % C := by
    rw [FetchBitStream_snd]
    by_cases h1 : C - 1 - GetDataSizeInRB C s = 0
    · rw [if_pos h1]
      have : n = 0 := by omega
      subst this
      simpa using write_ptr_eq C s h
    · rw [if_neg h1]
      simp only [hn]
      exact write_ptr_add C s h n
  rw [hw] at hw2
  have := add_mod_inj C s.read_ptr_ _ _ (dataSize_lt C _ hwf) (by omega) hw2
  exact this

theorem FetchBitStream_buffered (C : Nat) (s : RocVideoESParser) (h : RingWF C s) :
    buffered C (FetchBitStream C s).2 =
      buffered C s ++ s.p_stream_file_.data.take (C - 1 - GetDataSizeInRB C s) := by
  have hU := dataSize_lt C s h
  have hsz := FetchBitStream_dataSize C s h
  rw [FetchBitStream_fst] at hsz
  have hlen : (s.p_stream_file_.data.take (C - 1 - GetDataSizeInRB C s)).length
      ≤ C - 1 - GetDataSizeInRB C s := by
    rw [List.length_take]; exact Nat.min_le_left _ _
  apply List.ext_getElem?
  intro i
  rw [buffered_getElem?, hsz, FetchBitStream_read_ptr]
  by_cases hi : i < GetDataSizeInRB C s
  · rw [List.getElem?_append_left (by rw [buffered_length]; exact hi), buffered_getElem?,
      if_pos hi, if_pos (by omega)]
    congr 1
    rw [FetchBitStream_snd]
    by_cases h1 : C - 1 - GetDataSizeInRB C s = 0
    · rw [if_pos h1]
    · rw [if_neg h1]
      show ringStore C s.bs_ring_ s.write_ptr_ _ _ = _
      apply ringStore_other
      intro k hk heq
      rw [write_ptr_add C s h] at heq
      have := add_mod_inj C s.read_ptr_ _ _ (by omega) (by omega) heq
      omega
  · rw [List.getElem?_append_right (by rw [buffered_length]; omega), buffered_length]
    split_ifs with h2
    · have hk : i - GetDataSizeInRB C s
          < (s.p_stream_file_.data.take (C - 1 - GetDataSizeInRB C s)).length := by omega
      rw [List.getElem?_eq_getElem hk]
      congr 1
      rw [FetchBitStream_snd]
      by_cases h1 : C - 1 - GetDataSizeInRB C s = 0
      · exfalso; rw [h1] at hk; simp at hk
      · rw [if_neg h1]
        show ringStore C s.bs_ring_ s.write_ptr_ _ _ = _
        have h3 := ringStore_get C (s.p_stream_file_.data.take (C - 1 - GetDataSizeInRB C s))
          s.bs_ring_ s.write_ptr_ (i - GetDataSizeInRB C s) (by omega) hk
        rw [write_ptr_add C s h,
          show GetDataSizeInRB C s + (i - GetDataSizeInRB C s) = i by omega] at h3
        rw [h3, List.getD_eq_getElem _ _ hk]
    · rw [List.getElem?_eq_none (by omega)]

theorem ringSlice_getElem? (ring : Nat → Nat) (a n i : Nat) :
    (ringSlice ring a n)[i]? = if i < n then some (ring (a + i)) else none := by
  unfold ringSlice
  rw [List.getElem?_map]
  split_ifs with h
  · rw [List.getElem?_range h]; rfl
  · rw [List.getElem?_eq_none (by simpa using h)]; rfl

theorem ringSlice_length (ring : Nat → Nat) (a n : Nat) : (ringSlice ring a n).length = n := by
  simp [ringSlice]

theorem drop_take_getElem? (l : List Nat) (off n i : Nat) :
    ((l.drop off).take n)[i]? = if i < n then l[off + i]? else none := by
  split_ifs with h
  · rw [List.getElem?_take_of_lt h, List.getElem?_drop]
  · rw [List.getElem?_eq_none (by rw [List.length_take]; omega)]

/-- The split copy of `ReadBytes` returns the unread bytes in stream order,
wherever the span lies relative to the physical end of the backing store. -/
theorem ReadBytes_eq (C : Nat) (s : RocVideoESParser) (h : RingWF C s) (off n : Nat)
    (hn : off + n ≤ GetDataSizeInRB C s) :
    ReadBytes C s off n = some (((buffered C s).drop off).take n) := by
  have hU := dataSize_lt C s h
  have hst : (s.read_ptr_ + off) % C < C := Nat.mod_lt _ (by omega)
  have hidx : ∀ i, (s.read_ptr_ + (off + i)) % C = ((s.read_ptr_ + off) % C + i) % C := by
    intro i; rw [Nat.mod_add_mod, Nat.add_assoc]
  unfold ReadBytes
  rw [if_pos hn]
  simp only
  generalize (s.read_ptr_ + off) % C = st at hst hidx
  split_ifs with h1
  · congr 1
    apply List.ext_getElem?
    intro i
    rw [ringSlice_getElem?, drop_take_getElem?]
    split_ifs with hi
    · rw [buffered_getElem?, if_pos (by omega), hidx,
        Nat.mod_eq_of_lt (show st + i < C by omega)]
    · rfl
  · congr 1
    apply List.ext_getElem?
    intro i
    rw [drop_take_getElem?]
    by_cases hi : i < C - st
    · rw [List.getElem?_append_left (by rw [ringSlice_length]; exact hi), ringSlice_getElem?,
        if_pos hi, if_pos (by omega), buffered_getElem?, if_pos (by omega), hidx,
        Nat.mod_eq_of_lt (show st + i < C by omega)]
    · rw [List.getElem?_append_right (by rw [ringSlice_length]; omega), ringSlice_length,
        ringSlice_getElem?]
      split_ifs with h2 h3 h3
      · rw [buffered_getElem?, if_pos (by omega), hidx, mod_two_cases _ _ (by omega),
          if_neg (by omega)]
        congr 2; omega
      · omega
      · omega
      · rfl

theorem ReadBytes_none (C : Nat) (s : RocVideoESParser) (off n : Nat)
    (hn : ¬ off + n ≤ GetDataSizeInRB C s) : ReadBytes C s off n = none := by
  unfold ReadBytes
  rw [if_neg hn]

theorem SetReadPointer_wf (C : Nat) (s : RocVideoESParser) (h : RingWF C s) (n : Nat) :
    RingWF C (SetReadPointer C s n) :=
  ⟨Nat.mod_lt _ (by have := h.1; omega), h.2⟩

theorem OpenStream_wf (C : Nat) (hC : 0 < C) (ring0 : Nat → Nat) (file : List Nat) :
    RingWF C (OpenStream ring0 file) := ⟨hC, hC⟩

theorem runRingOps_wf (C : Nat) (ops : List RingOp) :
    ∀ s, RingWF C s → RingWF C (runRingOps C s ops) := by
  induction ops with
  | nil => intro s h; exact h
  | cons op ops ih =>
    intro s h
    simp only [runRingOps, List.foldl_cons]
    apply ih
    cases op with
    | fetchBitStream => exact FetchBitStream_wf C s h
    | getByte _ => exact h
    | readBytes _ _ => exact h
    | setReadPointer v => exact SetReadPointer_wf C s h v

theorem take_length_take (l : List Nat) (n : Nat) : l.take (l.take n).length = l.take n := by
  rw [List.length_take]
  rcases Nat.le_total n l.length with h | h
  · rw [Nat.min_eq_left h]
  · rw [Nat.min_eq_right h, List.take_length, List.take_of_length_le h]

/-- C2: in every state reached from a freshly opened parser by any sequence of
`FetchBitStream`, `GetByte`, `ReadBytes` and `SetReadPointer` (with any arguments),
the unread count `GetDataSizeInRB` is at most the capacity and is the difference
`write_ptr_ − read_ptr_` modulo the capacity; a `FetchBitStream` issued there
stores at most (capacity − unread) bytes, and afterwards the unread bytes are the
former unread bytes, unchanged and in order, followed by the bytes just read. -/
theorem ring_never_overwrites (C : Nat) (hC : 0 < C) (ring0 : Nat → Nat) (file : List Nat)
    (ops : List RingOp) :
    GetDataSizeInRB C (runRingOps C (OpenStream ring0 file) ops) ≤ C ∧
    ((runRingOps C (OpenStream ring0 file) ops).read_ptr_ +
        GetDataSizeInRB C (runRingOps C (OpenStream ring0 file) ops)) % C =
      (runRingOps C (OpenStream ring0 file) ops).write_ptr_ ∧
    (FetchBitStream C (runRingOps C (OpenStream ring0 file) ops)).1 ≤
      C - GetDataSizeInRB C (runRingOps C (OpenStream ring0 file) ops) ∧
    buffered C (FetchBitStream C (runRingOps C (OpenStream ring0 file) ops)).2 =
      buffered C (runRingOps C (OpenStream ring0 file) ops) ++
        (runRingOps C (OpenStream ring0 file) ops).p_stream_file_.data.take
          (FetchBitStream C (runRingOps C (OpenStream ring0 file) ops)).1 ∧
    GetDataSizeInRB C (FetchBitStream C (runRingOps C (OpenStream ring0 file) ops)).2 ≤ C := by
  have hwf := runRingOps_wf C ops _ (OpenStream_wf C hC ring0 file)
  generalize runRingOps C (OpenStream ring0 file) ops = s at hwf
  refine ⟨le_of_lt (dataSize_lt C s hwf), (write_ptr_eq C s hwf).symm, ?_, ?_,
    le_of_lt (dataSize_lt C _ (FetchBitStream_wf C s hwf))⟩
  · rw [FetchBitStream_fst, List.length_take]
    have := Nat.min_le_left (C - 1 - GetDataSizeInRB C s) s.p_stream_file_.data.length
    omega
  · rw [FetchBitStream_buffered C s hwf, FetchBitStream_fst, take_length_take]

/-- C3: two ring states that hold the same unread bytes at any two positions of
`read_ptr_` (so in particular one with the span running over the physical end of
the backing store and one with the span lying inside it) give byte-identical
copies: `ReadBytes` agrees for every offset and size and returns the bytes in
stream order, and `CopyNalUnitFromRing` and `CopyObuFromRing`, started from equal
cursors and output, produce equal output. -/
theorem wrap_is_transparent (C : Nat) (s1 s2 : RocVideoESParser)
    (h1 : RingWF C s1) (h2 : RingWF C s2)
    (hb : buffered C s1 = buffered C s2) :
    (∀ off n, ReadBytes C s1 off n = ReadBytes C s2 off n) ∧
    (∀ off n, off + n ≤ GetDataSizeInRB C s1 →
      ReadBytes C s1 off n = some (((buffered C s1).drop off).take n)) ∧
    (s1.curr_start_code_offset_ = s2.curr_start_code_offset_ →
      s1.next_start_code_offset_ = s2.next_start_code_offset_ →
      s1.pic_data_ = s2.pic_data_ →
      (CopyNalUnitFromRing C s1).pic_data_ = (CopyNalUnitFromRing C s2).pic_data_) ∧
    (s1.obu_byte_offset_ = s2.obu_byte_offset_ → s1.obu_size_ = s2.obu_size_ →
      s1.pic_data_ = s2.pic_data_ →
      (CopyObuFromRing C s1).1 = (CopyObuFromRing C s2).1 ∧
      (CopyObuFromRing C s1).2.pic_data_ = (CopyObuFromRing C s2).2.pic_data_) := by
  have hsz : GetDataSizeInRB C s1 = GetDataSizeInRB C s2 := by
    rw [← buffered_length, ← buffered_length, hb]
  have hread : ∀ off n, ReadBytes C s1 off n = ReadBytes C s2 off n := by
    intro off n
    by_cases hn : off + n ≤ GetDataSizeInRB C s1
    · rw [ReadBytes_eq C s1 h1 off n hn, ReadBytes_eq C s2 h2 off n (hsz ▸ hn), hb]
    · rw [ReadBytes_none C s1 off n hn, ReadBytes_none C s2 off n (hsz ▸ hn)]
  have hbyte : GetByte C s1 = GetByte C s2 := by
    rw [GetByte_fun_eq, GetByte_fun_eq, hb]
  refine ⟨hread, fun off n hn => ReadBytes_eq C s1 h1 off n hn, ?_, ?_⟩
  · intro hc hn hp
    have hbegin : nalBegin C s1 = nalBegin C s2 := by
      unfold nalBegin; rw [hbyte, hc]
    unfold CopyNalUnitFromRing
    simp only [hbegin, hn, hread]
    cases ReadBytes C s2 (nalBegin C s2) (s2.next_start_code_offset_ - nalBegin C s2) with
    | none => exact hp
    | some bytes => simp only [SetReadPointer, hp]
  · intro ho hs hp
    unfold CopyObuFromRing
    simp only [ho, hs, hread]
    by_cases hneg : s2.obu_size_ < 0
    · rw [if_pos hneg, if_pos hneg]
      exact ⟨rfl, hp⟩
    · rw [if_neg hneg, if_neg hneg]
      cases ReadBytes C s2 s2.obu_byte_offset_ s2.obu_size_.toNat with
      | none => exact ⟨rfl, hp⟩
      | some bytes => simp only [SetReadPointer, hp, and_self]

/-- Witness for C2: capacity 8, a 12-byte file, and the operations fetch, advance
by 5, peek, fetch. -/
theorem ring_never_overwrites_witness :
    0 < 8 ∧
    buffered 8 (FetchBitStream 8 (runRingOps 8 (OpenStream (fun _ => 0)
        [1, 2, 3, 4, 5, 6, 7, 8, 9, 10, 11, 12])
        [RingOp.fetchBitStream, RingOp.setReadPointer 5, RingOp.getByte 0,
          RingOp.fetchBitStream])).2 =
      buffered 8 (runRingOps 8 (OpenStream (fun _ => 0)
        [1, 2, 3, 4, 5, 6, 7, 8, 9, 10, 11, 12])
        [RingOp.fetchBitStream, RingOp.setReadPointer 5, RingOp.getByte 0,
          RingOp.fetchBitStream]) ++
      (runRingOps 8 (OpenStream (fun _ => 0)
        [1, 2, 3, 4, 5, 6, 7, 8, 9, 10, 11, 12])
        [RingOp.fetchBitStream, RingOp.setReadPointer 5, RingOp.getByte 0,
          RingOp.fetchBitStream]).p_stream_file_.data.take
        (FetchBitStream 8 (runRingOps 8 (OpenStream (fun _ => 0)
        [1, 2, 3, 4, 5, 6, 7, 8, 9, 10, 11, 12])
        [RingOp.fetchBitStream, RingOp.setReadPointer 5, RingOp.getByte 0,
          RingOp.fetchBitStream])).1 :=
  ⟨by decide, (ring_never_overwrites 8 (by decide) (fun _ => 0)
    [1, 2, 3, 4, 5, 6, 7, 8, 9, 10, 11, 12]
    [RingOp.fetchBitStream, RingOp.setReadPointer 5, RingOp.getByte 0,
      RingOp.fetchBitStream]).2.2.2.1⟩

/-- Witness for C3: the unit `1 2 3 4` read from indices 6, 7, 0, 1 and from
indices 0 to 3. -/
theorem wrap_is_transparent_witness :
    RingWF 8 ringStraddling ∧ RingWF 8 ringInside ∧
    buffered 8 ringStraddling = buffered 8 ringInside ∧
    8 < ringStraddling.read_ptr_ + GetDataSizeInRB 8 ringStraddling ∧
    ringInside.read_ptr_ + GetDataSizeInRB 8 ringInside ≤ 8 ∧
    ReadBytes 8 ringStraddling 0 4 = some [1, 2, 3, 4] ∧
    ReadBytes 8 ringStraddling 0 4 = ReadBytes 8 ringInside 0 4 :=
  ⟨⟨by decide, by decide⟩, ⟨by decide, by decide⟩, by decide, by decide, by decide,
    by decide,
    (wrap_is_transparent 8 ringStraddling ringInside ⟨by decide, by decide⟩
      ⟨by decide, by decide⟩ (by decide)).1 0 4⟩

end Ring

/-! ### leb128 -/

section Leb128

theorem leb128Loop_chain (peek : Nat → Option Nat) :
    ∀ (enc : List Nat) (n i acc : Nat), leb128Chain enc → enc.length ≤ n →
      (∀ k, k < enc.length → peek (i + k) = some (enc.getD k 0)) →
      leb128Loop peek n i acc = some (acc + leb128Value enc * 2 ^ (7 * i), i + enc.length) := by
  intro enc
  induction enc with
  | nil => intro n i acc h; exact absurd h (by simp [leb128Chain])
  | cons b bs ih =>
    intro n i acc hch hlen hpeek
    cases n with
    | zero => simp at hlen
    | succ n =>
      have h0 := hpeek 0 (by simp)
      simp only [Nat.add_zero, List.getD_cons_zero] at h0
      simp only [leb128Loop, h0]
      rcases hch with ⟨hnil, hb⟩ | ⟨hb1, hb2, hch2⟩
      · subst hnil
        have : ¬ b / 128 % 2 = 1 := by omega
        simp only [this, if_false, leb128Value, List.length_singleton, Nat.mul_zero,
          Nat.add_zero]
      · have : b / 128 % 2 = 1 := by omega
        simp only [this, if_true]
        rw [ih n (i + 1) _ hch2 (by simpa using hlen)]
        · simp only [leb128Value, List.length_cons, Option.some.injEq, Prod.mk.injEq]
          constructor
          · rw [show 7 * (i + 1) = 7 * i + 7 by ring, pow_add]; ring
          · ring
        · intro k hk
          have := hpeek (k + 1) (by simp; omega)
          rw [show i + 1 + k = i + (k + 1) by omega, this]
          simp

theorem leb128Loop_overlong (peek : Nat → Option Nat) :
    ∀ (n i acc : Nat), (∀ k, k < n → ∃ b, peek (i + k) = some b ∧ b / 128 % 2 = 1) →
      leb128Loop peek n i acc = none := by
  intro n
  induction n with
  | zero => intro i acc _; rfl
  | succ n ih =>
    intro i acc h
    obtain ⟨b, hb, hc⟩ := h 0 (by omega)
    simp only [Nat.add_zero] at hb
    simp only [leb128Loop, hb, hc, if_true]
    apply ih
    intro k hk
    have := h (k + 1) (by omega)
    rwa [show i + 1 + k = i + (k + 1) by omega]

theorem leb128Value_lt (enc : List Nat) (h : leb128Chain enc) :
    leb128Value enc < 128 ^ enc.length := by
  induction enc with
  | nil => exact absurd h (by simp [leb128Chain])
  | cons b bs ih =>
    rcases h with ⟨hnil, hb⟩ | ⟨_, _, hch⟩
    · subst hnil
      simp only [leb128Value, List.length_singleton, pow_one]
      omega
    · have := ih hch
      simp only [leb128Value, List.length_cons, pow_succ]
      have hb : b % 128 < 128 := Nat.mod_lt _ (by decide)
      nlinarith

theorem leb128Encode_spec :
    ∀ (n v : Nat), 0 < n → v < 128 ^ n →
      leb128Chain (leb128Encode n v) ∧ (leb128Encode n v).length ≤ n ∧
      leb128Value (leb128Encode n v) = v := by
  intro n
  induction n with
  | zero => intro v h; omega
  | succ n ih =>
    intro v _ hv
    simp only [leb128Encode]
    split_ifs with h
    · refine ⟨Or.inl ⟨rfl, h⟩, by simp, ?_⟩
      simp only [leb128Value]
      omega
    · have hn : 0 < n := by
        rcases Nat.eq_zero_or_pos n with h0 | h0
        · subst h0; simp at hv; omega
        · exact h0
      have hv2 : v / 128 < 128 ^ n := by
        rw [Nat.div_lt_iff_lt_mul (by decide)]
        rw [pow_succ] at hv
        exact hv
      obtain ⟨h1, h2, h3⟩ := ih (v / 128) hn hv2
      refine ⟨Or.inr ⟨by omega, by omega, h1⟩, by simp; omega, ?_⟩
      simp only [leb128Value, h3]
      omega

theorem getD_eq_getElem? (l : List Nat) (k : Nat) (hk : k < l.length) :
    l[k]? = some (l.getD k 0) := by
  rw [List.getElem?_eq_getElem hk, List.getD_eq_getElem _ _ hk]

theorem toInt32_range (x : Nat) : -2 ^ 31 ≤ toInt32 x ∧ toInt32 x < 2 ^ 31 := by
  unfold toInt32
  have := Nat.mod_lt x (show 0 < 2 ^ 32 by norm_num)
  split_ifs <;> omega

theorem toInt32_small (x : Nat) (h : x < 2 ^ 31) : toInt32 x = (x : Int) := by
  unfold toInt32
  rw [Nat.mod_eq_of_lt (by omega), if_pos h]

/-- C4: the leb128 decoder used by `ReadObuHeaderAndSize` reads every valid 1 to 8
byte encoding completely, and its value (below `2^56`, so within the 64-bit
accumulator) round-trips: re-encoding the decoded value gives a valid encoding
whose decoding is that value again.  With such an encoding behind the header,
`ReadObuHeaderAndSize` succeeds and `int obu_size_` receives header bytes + size
bytes + payload size as a 32-bit signed integer: always within the range of
`int`, and exactly that sum whenever the sum is below `2^31`.  With a size field
whose first 8 bytes all carry the continuation bit it returns false. -/
theorem leb128_roundtrip_and_reject :
    (∀ enc, ValidLeb128 enc →
      ReadLeb128 (fun i => enc[i]?) = some (leb128Value enc, enc.length) ∧
      leb128Value enc < 2 ^ 56 ∧
      ValidLeb128 (leb128Encode LEB128_MAX_BYTES (leb128Value enc)) ∧
      ReadLeb128 (fun i => (leb128Encode LEB128_MAX_BYTES (leb128Value enc))[i]?) =
        some (leb128Value enc, (leb128Encode LEB128_MAX_BYTES (leb128Value enc)).length)) ∧
    (∀ C s hdr enc, GetByte C s s.obu_byte_offset_ = some hdr → hdr / 2 % 2 = 1 →
      ValidLeb128 enc →
      (∀ k, k < enc.length →
        GetByte C s (s.obu_byte_offset_ + (1 + hdr / 4 % 2) + k) = some (enc.getD k 0)) →
      ReadObuHeaderAndSize C s =
        (true, hdr / 8 % 16,
          { s with obu_size_ := toInt32 (1 + hdr / 4 % 2 + enc.length + leb128Value enc) }) ∧
      -2 ^ 31 ≤ (ReadObuHeaderAndSize C s).2.2.obu_size_ ∧
      (ReadObuHeaderAndSize C s).2.2.obu_size_ < 2 ^ 31 ∧
      (1 + hdr / 4 % 2 + enc.length + leb128Value enc < 2 ^ 31 →
        (ReadObuHeaderAndSize C s).2.2.obu_size_ =
          ((1 + hdr / 4 % 2 + enc.length + leb128Value enc : Nat) : Int))) ∧
    (∀ C s hdr, GetByte C s s.obu_byte_offset_ = some hdr → hdr / 2 % 2 = 1 →
      (∀ k, k < LEB128_MAX_BYTES → ∃ b,
        GetByte C s (s.obu_byte_offset_ + (1 + hdr / 4 % 2) + k) = some b ∧ b / 128 % 2 = 1) →
      (ReadObuHeaderAndSize C s).1 = false) := by
  have hdec : ∀ (peek : Nat → Option Nat) enc, ValidLeb128 enc →
      (∀ k, k < enc.length → peek k = some (enc.getD k 0)) →
      ReadLeb128 peek = some (leb128Value enc, enc.length) := by
    intro peek enc hv hp
    have := leb128Loop_chain peek enc LEB128_MAX_BYTES 0 0 hv.1 hv.2
      (by intro k hk; rw [Nat.zero_add]; exact hp k hk)
    simpa [ReadLeb128] using this
  refine ⟨?_, ?_, ?_⟩
  · intro enc hv
    have hlt : leb128Value enc < 128 ^ LEB128_MAX_BYTES :=
      lt_of_lt_of_le (leb128Value_lt enc hv.1)
        (Nat.pow_le_pow_right (by decide) hv.2)
    obtain ⟨h1, h2, h3⟩ := leb128Encode_spec LEB128_MAX_BYTES (leb128Value enc)
      (by decide) hlt
    refine ⟨hdec _ enc hv (fun k hk => getD_eq_getElem? enc k hk), ?_, ⟨h1, h2⟩, ?_⟩
    · have h56 : 128 ^ LEB128_MAX_BYTES = 2 ^ 56 := by norm_num [LEB128_MAX_BYTES]
      rw [← h56]; exact hlt
    · have := hdec (fun i => (leb128Encode LEB128_MAX_BYTES (leb128Value enc))[i]?) _ ⟨h1, h2⟩
        (fun k hk => getD_eq_getElem? _ k hk)
      rw [h3] at this
      exact this
  · intro C s hdr enc hh hs hv hp
    have := hdec (fun i => GetByte C s (s.obu_byte_offset_ + (1 + hdr / 4 % 2) + i)) enc hv hp
    have heq : ReadObuHeaderAndSize C s =
        (true, hdr / 8 % 16,
          { s with obu_size_ := toInt32 (1 + hdr / 4 % 2 + enc.length + leb128Value enc) }) := by
      simp only [ReadObuHeaderAndSize, hh, hs, if_true, this]
    rw [heq]
    exact ⟨rfl, (toInt32_range _).1, (toInt32_range _).2, fun hsmall => toInt32_small _ hsmall⟩
  · intro C s hdr hh hs hp
    have := leb128Loop_overlong
      (fun i => GetByte C s (s.obu_byte_offset_ + (1 + hdr / 4 % 2) + i)) LEB128_MAX_BYTES 0 0
      (by intro k hk; rw [Nat.zero_add]; exact hp k hk)
    simp only [ReadObuHeaderAndSize, hh, hs, if_true, ReadLeb128, this]

/-- Witness for C4: the two-byte encoding `80 01` of 128. -/
theorem leb128_roundtrip_and_reject_witness :
    ValidLeb128 [128, 1] ∧
    ReadLeb128 (fun i => [128, 1][i]?) = some (128, 2) ∧
    ReadLeb128 (fun i => (leb128Encode LEB128_MAX_BYTES 128)[i]?) = some (128, 2) :=
  ⟨⟨Or.inr ⟨by decide, by decide, Or.inl ⟨rfl, by decide⟩⟩, by decide⟩,
    (leb128_roundtrip_and_reject.1 [128, 1]
      ⟨Or.inr ⟨by decide, by decide, Or.inl ⟨rfl, by decide⟩⟩, by decide⟩).1,
    (leb128_roundtrip_and_reject.1 [128, 1]
      ⟨Or.inr ⟨by decide, by decide, Or.inl ⟨rfl, by decide⟩⟩, by decide⟩).2.2.2⟩

end Leb128

/-! ### IVF header -/

section Ivf

theorem FetchUntil_one (C n : Nat) (s : RocVideoESParser) (hwf : RingWF C s)
    (h0 : GetDataSizeInRB C s < n) (hn : n ≤ GetDataSizeInRB C s + (FetchBitStream C s).1)
    (m : Nat) : FetchUntil C n (m + 2) s = (FetchBitStream C s).2 := by
  have hsz := FetchBitStream_dataSize C s hwf
  simp only [FetchUntil]
  rw [if_neg (by omega), if_neg (by omega), if_pos (by omega)]

theorem ReadIvfFileHeader_flag (C : Nat) (magic : List Nat) (s : RocVideoESParser) :
    (ReadIvfFileHeader C magic s).ivf_file_header_read_ = true := by
  unfold ReadIvfFileHeader
  split_ifs with h
  · exact h
  · rfl

theorem ReadIvfFileHeader_done (C : Nat) (magic : List Nat) (s : RocVideoESParser)
    (h : s.ivf_file_header_read_ = true) : ReadIvfFileHeader C magic s = s := by
  unfold ReadIvfFileHeader
  rw [if_pos h]

end Ivf

/-! ### End of stream -/

section EndOfStream

theorem ReadBytes_length (C : Nat) (s : RocVideoESParser) (off n : Nat) (b : List Nat)
    (h : ReadBytes C s off n = some b) : b.length = n := by
  unfold ReadBytes at h
  by_cases h1 : off + n ≤ GetDataSizeInRB C s
  · rw [if_pos h1] at h
    simp only at h
    by_cases h2 : (s.read_ptr_ + off) % C + n ≤ C
    · rw [if_pos h2, Option.some.injEq] at h
      rw [← h, ringSlice_length]
    · rw [if_neg h2, Option.some.injEq] at h
      rw [← h, List.length_append, ringSlice_length, ringSlice_length]
      omega
  · rw [if_neg h1] at h
    cases h

theorem FetchBitStream_frame (C : Nat) (s : RocVideoESParser) :
    (FetchBitStream C s).2.pic_data_ = s.pic_data_ ∧
    (FetchBitStream C s).2.pic_data_size_ = s.pic_data_size_ ∧
    (FetchBitStream C s).2.end_of_stream_ = s.end_of_stream_ ∧
    (FetchBitStream C s).2.ivf_file_header_read_ = s.ivf_file_header_read_ := by
  rw [FetchBitStream_snd]
  by_cases h1 : C - 1 - GetDataSizeInRB C s = 0
  · rw [if_pos h1]; exact ⟨rfl, rfl, rfl, rfl⟩
  · rw [if_neg h1]; exact ⟨rfl, rfl, rfl, rfl⟩

theorem FetchUntil_frame (C n : Nat) :
    ∀ (fuel : Nat) (s : RocVideoESParser),
      (FetchUntil C n fuel s).pic_data_ = s.pic_data_ ∧
      (FetchUntil C n fuel s).pic_data_size_ = s.pic_data_size_ ∧
      (FetchUntil C n fuel s).end_of_stream_ = s.end_of_stream_ ∧
      (FetchUntil C n fuel s).ivf_file_header_read_ = s.ivf_file_header_read_ := by
  intro fuel
  induction fuel with
  | zero => intro s; exact ⟨rfl, rfl, rfl, rfl⟩
  | succ fuel ih =>
    intro s
    simp only [FetchUntil]
    obtain ⟨a, b, c, d⟩ := FetchBitStream_frame C s
    split_ifs with h1 h2
    · exact ⟨rfl, rfl, rfl, rfl⟩
    · exact ⟨a, b, c, d⟩
    · obtain ⟨a2, b2, c2, d2⟩ := ih (FetchBitStream C s).2
      exact ⟨a2.trans a, b2.trans b, c2.trans c, d2.trans d⟩

theorem FindStartCode_frame (C : Nat) :
    ∀ (fuel : Nat) (s : RocVideoESParser),
      (FindStartCode C fuel s).2.pic_data_ = s.pic_data_ ∧
      (FindStartCode C fuel s).2.pic_data_size_ = s.pic_data_size_ := by
  intro fuel
  induction fuel with
  | zero => intro s; exact ⟨rfl, rfl⟩
  | succ fuel ih =>
    intro s
    simp only [FindStartCode]
    split
    · obtain ⟨a, b, _, _⟩ := FetchBitStream_frame C { s with curr_byte_offset_ := _ }
      split_ifs
      · obtain ⟨a2, b2⟩ := ih (FetchBitStream C { s with curr_byte_offset_ := _ }).2
        exact ⟨a2.trans a, b2.trans b⟩
      · exact ⟨a, b⟩
      · exact ⟨a, b⟩
    · split
      · exact ⟨rfl, rfl⟩
      · obtain ⟨a, b, _, _⟩ := FetchBitStream_frame C { s with curr_byte_offset_ := _ }
        split_ifs
        · obtain ⟨a2, b2⟩ := ih (FetchBitStream C { s with curr_byte_offset_ := _ }).2
          exact ⟨a2.trans a, b2.trans b⟩
        · exact ⟨a, b⟩
        · exact ⟨a, b⟩

theorem CopyNalUnitFromRing_ok (C : Nat) (s : RocVideoESParser) (h : OutOK s) :
    OutOK (CopyNalUnitFromRing C s) := by
  unfold CopyNalUnitFromRing
  simp only
  split
  · exact h
  · next bytes hb =>
    have := ReadBytes_length C s _ _ bytes hb
    unfold OutOK at h ⊢
    simp only [SetReadPointer, List.length_append, h, this]

theorem GetPicDataAvcHevcLoop_ok (C : Nat) (check : RocVideoESParser → Nat → Bool × Bool) :
    ∀ (fuel num_slices : Nat) (s : RocVideoESParser), OutOK s →
      OutOK (GetPicDataAvcHevcLoop C check fuel num_slices s) := by
  intro fuel
  induction fuel with
  | zero => intro _ s h; exact h
  | succ fuel ih =>
    intro num_slices s h
    have hf : OutOK (FindStartCode C (s.p_stream_file_.data.length + 1) s).2 := by
      obtain ⟨a, b⟩ := FindStartCode_frame C (s.p_stream_file_.data.length + 1) s
      unfold OutOK at h ⊢
      rw [a, b]; exact h
    simp only [GetPicDataAvcHevcLoop]
    split_ifs
    all_goals first
      | exact h
      | exact hf
      | exact ih _ _ (CopyNalUnitFromRing_ok C _ hf)

theorem ReadObuHeaderAndSize_ok (C : Nat) (s : RocVideoESParser) (h : OutOK s) :
    OutOK (ReadObuHeaderAndSize C s).2.2 := by
  unfold ReadObuHeaderAndSize
  split
  · exact h
  · simp only
    split_ifs
    · split
      · exact h
      · simp only [OutOK] at h ⊢; exact h
    · simp only [OutOK] at h ⊢; exact h

theorem CopyObuFromRing_ok (C : Nat) (s : RocVideoESParser) (h : OutOK s) :
    OutOK (CopyObuFromRing C s).2 := by
  unfold CopyObuFromRing
  split_ifs
  · exact h
  · split
    · exact h
    · next bytes hb =>
      have := ReadBytes_length C s _ _ bytes hb
      unfold OutOK at h ⊢
      simp only [SetReadPointer, List.length_append, h, this]

theorem FetchBitStream_ok (C : Nat) (s : RocVideoESParser) (h : OutOK s) :
    OutOK (FetchBitStream C s).2 := by
  obtain ⟨a, b, _, _⟩ := FetchBitStream_frame C s
  unfold OutOK at h ⊢
  rw [a, b]; exact h

theorem GetPicDataAv1Loop_ok (C : Nat) :
    ∀ (fuel num_obus : Nat) (s : RocVideoESParser), OutOK s →
      OutOK (GetPicDataAv1Loop C fuel num_obus s) := by
  intro fuel
  induction fuel with
  | zero => intro _ s h; exact h
  | succ fuel ih =>
    intro num_obus s h
    have h1 := ReadObuHeaderAndSize_ok C s h
    have h2 := CopyObuFromRing_ok C _ h1
    simp only [GetPicDataAv1Loop]
    split_ifs
    · exact h
    · exact FetchBitStream_ok C _ h1
    · exact ih _ _ (FetchBitStream_ok C _ h1)
    · exact h1
    · exact FetchBitStream_ok C _ h2
    · exact ih _ _ (FetchBitStream_ok C _ h2)
    · exact ih _ _ h2
    · exact ih _ _ h2

theorem picResult_end (s : RocVideoESParser) :
    picResult s = PicResult.endOfStream ↔ s.pic_data_size_ = 0 ∧ s.end_of_stream_ = true := by
  unfold picResult
  split_ifs with h
  · simp [h]
  · simp only [false_iff]; exact h

theorem reset_eq (s : RocVideoESParser) (h1 : s.pic_data_ = []) (h2 : s.pic_data_size_ = 0) :
    { s with pic_data_ := [], pic_data_size_ := 0 } = s := by
  cases s
  simp only at h1 h2
  subst h1 h2
  rfl

theorem OutOK_nil (s : RocVideoESParser) (h : OutOK s) (h0 : s.pic_data_size_ = 0) :
    s.pic_data_ = [] := by
  unfold OutOK at h
  exact List.eq_nil_of_length_eq_zero (by omega)

theorem GetPicDataAvcHevc_terminal (C : Nat) (check : RocVideoESParser → Nat → Bool × Bool)
    (s : RocVideoESParser) (h : (GetPicDataAvcHevc C check s).1 = PicResult.endOfStream) :
    (GetPicDataAvcHevc C check s).2.pic_data_ = [] ∧
    (GetPicDataAvcHevc C check s).2.pic_data_size_ = 0 ∧
    (GetPicDataAvcHevc C check s).2.end_of_stream_ = true := by
  have hok := GetPicDataAvcHevcLoop_ok C check
    (GetDataSizeInRB C { s with pic_data_ := [], pic_data_size_ := 0 }
      + s.p_stream_file_.data.length + 1) 0
    { s with pic_data_ := [], pic_data_size_ := 0 } rfl
  generalize hr : GetPicDataAvcHevc C check s = r at h ⊢
  simp only [GetPicDataAvcHevc] at hr
  generalize GetPicDataAvcHevcLoop C check _ 0 { s with pic_data_ := [], pic_data_size_ := 0 }
    = s2 at hr hok
  by_cases hz : s2.pic_data_size_ = 0
  · rw [if_pos hz] at hr
    subst hr
    exact ⟨OutOK_nil s2 hok hz, hz, ((picResult_end s2).mp h).2⟩
  · rw [if_neg hz] at hr
    subst hr
    exact absurd ((picResult_end _).mp h).1 hz

theorem GetPicDataAv1_terminal (C : Nat) (s : RocVideoESParser)
    (h : (GetPicDataAv1 C s).1 = PicResult.endOfStream) :
    (GetPicDataAv1 C s).2.pic_data_ = [] ∧ (GetPicDataAv1 C s).2.pic_data_size_ = 0 ∧
    (GetPicDataAv1 C s).2.end_of_stream_ = true := by
  have hok := GetPicDataAv1Loop_ok C
    (2 * (GetDataSizeInRB C { s with pic_data_ := [], pic_data_size_ := 0 }
      + s.p_stream_file_.data.length) + 2) 0
    { s with pic_data_ := [], pic_data_size_ := 0 } rfl
  generalize hr : GetPicDataAv1 C s = r at h ⊢
  simp only [GetPicDataAv1] at hr
  generalize GetPicDataAv1Loop C _ 0 { s with pic_data_ := [], pic_data_size_ := 0 }
    = s2 at hr hok
  by_cases hz : s2.pic_data_size_ = 0
  · rw [if_pos hz] at hr
    subst hr
    exact ⟨OutOK_nil s2 hok hz, hz, ((picResult_end s2).mp h).2⟩
  · rw [if_neg hz] at hr
    subst hr
    exact absurd ((picResult_end _).mp h).1 hz

theorem GetPicDataIvfAv1_terminal (C : Nat) (magic : List Nat) (s : RocVideoESParser)
    (h : (GetPicDataIvfAv1 C magic s).1 = PicResult.endOfStream) :
    (GetPicDataIvfAv1 C magic s).2.pic_data_ = [] ∧
    (GetPicDataIvfAv1 C magic s).2.pic_data_size_ = 0 ∧
    (GetPicDataIvfAv1 C magic s).2.end_of_stream_ = true ∧
    (GetPicDataIvfAv1 C magic s).2.ivf_file_header_read_ = true := by
  have hflag := ReadIvfFileHeader_flag C magic s
  generalize hr : GetPicDataIvfAv1 C magic s = r at h ⊢
  unfold GetPicDataIvfAv1 at hr
  simp only at hr
  generalize ReadIvfFileHeader C magic s = s1 at hr hflag
  by_cases he : s1.end_of_stream_ = true
  · rw [if_pos he] at hr
    subst hr
    exact ⟨rfl, rfl, he, hflag⟩
  · rw [if_neg he] at hr
    obtain ⟨a1, b1, c1, d1⟩ := FetchUntil_frame C 4 (s1.p_stream_file_.data.length + 1)
      { s1 with pic_data_ := [], pic_data_size_ := 0 }
    generalize FetchUntil C 4 _ { s1 with pic_data_ := [], pic_data_size_ := 0 } = s2
      at hr a1 b1 c1 d1
    cases hrb : ReadBytes C s2 0 4 with
    | none =>
      simp only [hrb] at hr
      subst hr
      exact ⟨a1, b1, rfl, d1.trans hflag⟩
    | some size_bytes =>
      simp only [hrb] at hr
      obtain ⟨a2, b2, c2, d2⟩ := FetchUntil_frame C (4 + littleEndian size_bytes)
        (s2.p_stream_file_.data.length + 1) s2
      generalize FetchUntil C (4 + littleEndian size_bytes) _ s2 = s3 at hr a2 b2 c2 d2
      cases hrb2 : ReadBytes C s3 4 (littleEndian size_bytes) with
      | none =>
        simp only [hrb2] at hr
        subst hr
        exact ⟨a2.trans a1, b2.trans b1, rfl, (d2.trans d1).trans hflag⟩
      | some bytes =>
        simp only [hrb2] at hr
        subst hr
        have h3 : s3.end_of_stream_ = true := ((picResult_end _).mp h).2
        rw [c2, c1] at h3
        exact absurd h3 he

/-- After a terminal signal the output buffer is empty, the stream is marked as
ended, and (for the IVF strategy) the container check has been done. -/
theorem GetPicData_terminal (cfg : ParserSetup) (s : RocVideoESParser)
    (h : (GetPicData cfg s).1 = PicResult.endOfStream) :
    (GetPicData cfg s).2.pic_data_ = [] ∧ (GetPicData cfg s).2.pic_data_size_ = 0 ∧
    (GetPicData cfg s).2.end_of_stream_ = true ∧
    (cfg.stream_type = StreamType.IvfAv1 →
      (GetPicData cfg s).2.ivf_file_header_read_ = true) := by
  unfold GetPicData at h ⊢
  cases hst : cfg.stream_type with
  | AvcHevc =>
    simp only [hst] at h ⊢
    obtain ⟨a, b, c⟩ := GetPicDataAvcHevc_terminal cfg.C cfg.check s h
    exact ⟨a, b, c, fun hc => by cases hc⟩
  | Av1 =>
    simp only [hst] at h ⊢
    obtain ⟨a, b, c⟩ := GetPicDataAv1_terminal cfg.C s h
    exact ⟨a, b, c, fun hc => by cases hc⟩
  | IvfAv1 =>
    simp only [hst] at h ⊢
    obtain ⟨a, b, c, d⟩ := GetPicDataIvfAv1_terminal cfg.C cfg.magic s h
    exact ⟨a, b, c, fun _ => d⟩

/-- Once the stream is marked as ended and the output buffer is empty, a call
returns the terminal signal and leaves the state as it is. -/
theorem GetPicData_fixed (cfg : ParserSetup) (s : RocVideoESParser)
    (h1 : s.pic_data_ = []) (h2 : s.pic_data_size_ = 0) (h3 : s.end_of_stream_ = true)
    (h4 : cfg.stream_type = StreamType.IvfAv1 → s.ivf_file_header_read_ = true) :
    GetPicData cfg s = (PicResult.endOfStream, s) := by
  have hres : picResult s = PicResult.endOfStream := (picResult_end s).mpr ⟨h2, h3⟩
  unfold GetPicData
  cases hst : cfg.stream_type with
  | AvcHevc =>
    simp only [GetPicDataAvcHevc, reset_eq s h1 h2]
    have hl : ∀ fuel, GetPicDataAvcHevcLoop cfg.C cfg.check (fuel + 1) 0 s = s := by
      intro fuel; simp only [GetPicDataAvcHevcLoop, h3, if_true]
    rw [hl]
    simp only [h2, if_true, hres]
  | Av1 =>
    simp only [GetPicDataAv1, reset_eq s h1 h2]
    have hl : ∀ fuel, GetPicDataAv1Loop cfg.C (fuel + 1) 0 s = s := by
      intro fuel; simp only [GetPicDataAv1Loop, h3, if_true]
    rw [show 2 * (GetDataSizeInRB cfg.C s + s.p_stream_file_.data.length) + 2
      = (2 * (GetDataSizeInRB cfg.C s + s.p_stream_file_.data.length) + 1) + 1 from rfl, hl]
    simp only [h2, if_true, hres]
  | IvfAv1 =>
    show GetPicDataIvfAv1 cfg.C cfg.magic s = _
    unfold GetPicDataIvfAv1
    rw [ReadIvfFileHeader_done cfg.C cfg.magic s (h4 hst)]
    dsimp only
    rw [if_pos h3, reset_eq s h1 h2, hres]

/-- C6: once `GetPicData` has returned the terminal signal with `end_of_stream_`
set, every further call returns the terminal signal again and leaves the whole
parser state as it was, including the file position and the count of file reads:
nothing is fetched.  This holds for each of the three parsing strategies, and
whether or not `end_of_file_` is set. -/
theorem end_of_stream_is_idempotent (cfg : ParserSetup) (s : RocVideoESParser)
    (h : (GetPicData cfg s).1 = PicResult.endOfStream) (n : Nat) :
    GetPicData cfg ((fun t => (GetPicData cfg t).2)^[n] (GetPicData cfg s).2) =
      (PicResult.endOfStream, (GetPicData cfg s).2) ∧
    ((fun t => (GetPicData cfg t).2)^[n] (GetPicData cfg s).2).p_stream_file_.num_reads =
      (GetPicData cfg s).2.p_stream_file_.num_reads := by
  obtain ⟨a, b, c, d⟩ := GetPicData_terminal cfg s h
  have hfix := GetPicData_fixed cfg _ a b c d
  have hit : ∀ n, (fun t => (GetPicData cfg t).2)^[n] (GetPicData cfg s).2
      = (GetPicData cfg s).2 := by
    intro n
    induction n with
    | zero => rfl
    | succ n ih => rw [Function.iterate_succ_apply', ih, hfix]
  rw [hit n]
  exact ⟨hfix, rfl⟩

end EndOfStream

/-! ### Annex-B pictures -/

section AnnexB

/-- Witness for C6: after the two pictures of the small stream, the third call gives
the terminal signal with both flags set, and five further calls change nothing. -/
theorem end_of_stream_is_idempotent_witness :
    (GetPicData smallSetup smallDrained).1 = PicResult.endOfStream ∧
    (GetPicData smallSetup smallDrained).2.end_of_file_ = true ∧
    (GetPicData smallSetup smallDrained).2.end_of_stream_ = true ∧
    GetPicData smallSetup
        ((fun t => (GetPicData smallSetup t).2)^[5] (GetPicData smallSetup smallDrained).2) =
      (PicResult.endOfStream, (GetPicData smallSetup smallDrained).2) :=
  ⟨by decide!, by decide!, by decide!,
    (end_of_stream_is_idempotent smallSetup smallDrained (by decide!) 5).1⟩

end AnnexB


end RocDecode
